import Mathlib

/-!
# mu2: command resolution and dispatch

A shallow embedding of `bot/commands.go` of fvdveen/mu2: the message handler
`commandHandler`, the learned-command resolver `bot.dbCommand`, the ephemeral
command `dbCommand` and the `learn` / `unlearn` actions of `learnCommands`.

Go code is stateful; here every function takes the world it runs in and
returns the world it leaves behind.  A world holds the state of the store, the
list of calls made to the collaborators (registry, gateway, store) in the order
they were made, and the lines written to the log.  A Go panic is the `error`
side of `Except Panic`.
-/

namespace Mu2

/-! ## Strings -/

/-- A Go string.  All texts handled here come from the gateway as valid UTF-8
and the only separator is the one-byte space, so splitting and prefix tests
on characters agree with the byte-level ones of Go. -/
abbrev Str := List Char

/-- The function strings.HasPrefix. -/
def HasPrefix (s p : Str) : Bool := p.isPrefixOf s

/-- The function strings.TrimPrefix. -/
def TrimPrefix (s p : Str) : Str :=
  if HasPrefix s p then s.drop p.length else s

/-- The function strings.Split for a separator of one byte: the pieces of `s`
between the occurrences of `sep`, empty pieces included. -/
def Split : Str → Char → List Str
  | [], _ => [[]]
  | c :: cs, sep =>
    if c = sep then [] :: Split cs sep
    else
      match Split cs sep with
      | [] => [[c]]
      | t :: ts => (c :: t) :: ts

/-- The function strings.Join. -/
def Join : List Str → Str → Str
  | [], _ => []
  | [a], _ => a
  | a :: b :: rest, sep => a ++ sep ++ Join (b :: rest) sep

/-! ## Runtime faults -/

/-- A Go runtime panic raised by an index or slice expression. -/
inductive Panic where
  | indexOutOfRange (index length : Nat)
  | sliceBoundsOutOfRange (low length : Nat)
  deriving DecidableEq, Repr

/-- The index expression `xs[i]`. -/
def index {α : Type} (xs : List α) (i : Nat) : Except Panic α :=
  match xs[i]? with
  | some x => .ok x
  | none => .error (.indexOutOfRange i xs.length)

/-- The slice expression `xs[lo:]`. -/
def sliceFrom {α : Type} (xs : List α) (lo : Nat) : Except Panic (List α) :=
  if lo ≤ xs.length then .ok (xs.drop lo) else .error (.sliceBoundsOutOfRange lo xs.length)

/-! ## Data model -/

/-- A Go error value.  `ErrItemNotFound` is the sentinel `db.ErrItemNotFound`;
every other error is told apart from it by `==`. -/
inductive Error where
  | ErrItemNotFound
  | other (text : Str)
  deriving DecidableEq, Repr

/-- The type db.Item: a learned message/response pair of one guild. -/
structure Item where
  Message : Str
  Response : Str
  GuildID : Str
  deriving DecidableEq, Repr

/-- The store interface `db.Service` over a store state `σ`.  `Get` reads;
`New` and `Remove` return their error (if any) and the state they leave. -/
structure Service (σ : Type) where
  Get : σ → Str → Str → Except Error Item
  New : σ → Item → Option Error × σ
  Remove : σ → Str → Str → Option Error × σ

/-- The fields of discordgo.MessageCreate the handler reads. -/
structure MessageCreate where
  AuthorID : Str
  ChannelID : Str
  Content : Str
  deriving DecidableEq, Repr

/-- The fields of discordgo.Channel the handler reads. -/
structure Channel where
  ID : Str
  GuildID : Str
  deriving DecidableEq, Repr

/-- The fields of discordgo.Guild the actions read. -/
structure Guild where
  ID : Str
  deriving DecidableEq, Repr

/-- A call to a collaborator, recorded in the order of execution. -/
inductive Event where
  /-- The registry lookup `b.Command(name)`. -/
  | command (name : Str)
  /-- The cache lookup `s.State.Channel(id)`. -/
  | stateChannel (id : Str)
  /-- The gateway request `s.Channel(id)`. -/
  | channel (id : Str)
  /-- The guild resolution `c.Guild()` of a message in channel `channelID`. -/
  | guild (channelID : Str)
  /-- The store read `Get(guildID, key)`. -/
  | dbGet (guildID key : Str)
  /-- The store write `New(item)`. -/
  | dbNew (item : Item)
  /-- The store write `Remove(guildID, key)`. -/
  | dbRemove (guildID key : Str)
  /-- The reply `c.Send(text)` into channel `channelID`. -/
  | send (channelID text : Str)
  deriving DecidableEq, Repr

/-- What a log line prints for its `%s` or `%v` argument. -/
inductive LogArg where
  | str (s : Str)
  | err (e : Error)
  deriving DecidableEq, Repr

/-- The level of a logrus line. -/
inductive Level where
  | debug
  | error
  deriving DecidableEq, Repr

/-- A logrus line: level, fields, format and argument. -/
structure LogEntry where
  level : Level
  fields : List (Str × Str)
  format : Str
  arg : LogArg
  deriving DecidableEq, Repr

/-- The world a handler runs in. -/
structure World (σ : Type) where
  db : σ
  trace : List Event
  logs : List LogEntry

/-- Record a call. -/
def World.emit {σ : Type} (w : World σ) (e : Event) : World σ :=
  { w with trace := w.trace ++ [e] }

/-- Write a log line. -/
def World.log {σ : Type} (w : World σ) (l : LogEntry) : World σ :=
  { w with logs := w.logs ++ [l] }

/-- The text of a reply, for a call that sends one. -/
def Event.reply? : Event → Option Str
  | .send _ text => some text
  | _ => none

/-- The texts sent as replies, in order. -/
def World.replies {σ : Type} (w : World σ) : List Str :=
  w.trace.filterMap Event.reply?

/-- The gateway session `*discordgo.Session`.  What the gateway answers may
depend on everything that happened before, so each answer is a function of
the calls made so far. -/
structure Session where
  /-- The identity `s.State.User.ID` of the bot. -/
  UserID : Str
  /-- The answer of `s.State.Channel(id)`. -/
  StateChannel : List Event → Str → Except Error Channel
  /-- The answer of `s.Channel(id)`. -/
  Channel : List Event → Str → Except Error Channel
  /-- The answer of the guild resolution for a message. -/
  Guild : List Event → MessageCreate → Except Error Guild
  /-- The error, if any, of sending `text` into a channel. -/
  ChannelMessageSend : List Event → Str → Str → Option Error

/-- Modelled from the spec: the request context of `bot/context.go`, a bundle
of the triggering message, the gateway session and the store handle. -/
structure Context (σ : Type) where
  m : MessageCreate
  s : Session
  db : Service σ

/-- Modelled from the spec: the reply primitive `Context.Send`, which sends a
plain text into the channel of the triggering message. -/
def Context.Send {σ : Type} (c : Context σ) (text : Str) (w : World σ) :
    Option Error × World σ :=
  (c.s.ChannelMessageSend w.trace c.m.ChannelID text, w.emit (.send c.m.ChannelID text))

/-- Modelled from the spec: the resolver `Context.Guild` of the guild the
triggering message was sent in. -/
def Context.Guild {σ : Type} (c : Context σ) (w : World σ) :
    Except Error Guild × World σ :=
  (c.s.Guild w.trace c.m, w.emit (.guild c.m.ChannelID))

/-- The call `c.Database().Get(guildID, key)`. -/
def Context.DatabaseGet {σ : Type} (c : Context σ) (guildID key : Str) (w : World σ) :
    Except Error Item × World σ :=
  (c.db.Get w.db guildID key, w.emit (.dbGet guildID key))

/-- The call `c.Database().New(item)`. -/
def Context.DatabaseNew {σ : Type} (c : Context σ) (item : Item) (w : World σ) :
    Option Error × World σ :=
  ((c.db.New w.db item).1, { w with db := (c.db.New w.db item).2, trace := w.trace ++ [.dbNew item] })

/-- The call `c.Database().Remove(guildID, key)`. -/
def Context.DatabaseRemove {σ : Type} (c : Context σ) (guildID key : Str) (w : World σ) :
    Option Error × World σ :=
  ((c.db.Remove w.db guildID key).1,
    { w with db := (c.db.Remove w.db guildID key).2, trace := w.trace ++ [.dbRemove guildID key] })

/-! ## Commands -/

/-- The type defaultCommand: name, description and action. -/
structure defaultCommand (σ : Type) where
  n : Str
  d : Str
  a : Context σ → List Str → World σ → Except Panic (World σ)

/-- The interface Command; defaultCommand is its only implementation. -/
abbrev Command (σ : Type) := defaultCommand σ

/-- The constructor NewCommand. -/
def NewCommand {σ : Type} (name description : Str)
    (action : Context σ → List Str → World σ → Except Panic (World σ)) : Command σ :=
  { n := name, d := description, a := action }

/-- The method Name. -/
def defaultCommand.Name {σ : Type} (c : defaultCommand σ) : Str := c.n

/-- The method Help. -/
def defaultCommand.Help {σ : Type} (c : defaultCommand σ) : Str := c.d

/-- The method Run. -/
def defaultCommand.Run {σ : Type} (c : defaultCommand σ) (ctx : Context σ) (args : List Str)
    (w : World σ) : Except Panic (World σ) :=
  c.a ctx args w

/-- The fields `type: command, command: name` of an action's log lines. -/
def commandFields (name : Str) : List (Str × Str) :=
  [("type".toList, "command".toList), ("command".toList, name)]

/-- The fields of the handler's log lines. -/
def handlerFields : List (Str × Str) :=
  [("type".toList, "handler".toList), ("handler".toList, "command".toList)]

/-- The ephemeral command `dbCommand(i)` built from a stored item: its action
sends the stored response. -/
def dbCommand {σ : Type} (i : Item) : Command σ :=
  NewCommand [] [] fun c _ w =>
    let sent := c.Send i.Response w
    match sent.1 with
    | some err =>
      .ok (sent.2.log
        { level := .error
          fields := commandFields "_learnable".toList ++
            [("item".toList, i.Message), ("guildID".toList, i.GuildID)]
          format := "Send message: %v".toList
          arg := .err err })
    | none => .ok sent.2

/-- The names that the `switch args[0]` of learn and unlearn lists. -/
def isReserved (name : Str) : Bool :=
  name = "learn".toList || name = "unlearn".toList || name = "help".toList ||
    name = "info".toList

/-- The action of the `learn` command. -/
def learnAction {σ : Type} (c : Context σ) (args : List Str) (w : World σ) :
    Except Panic (World σ) :=
  match index args 0 with
  | .error p => .error p
  | .ok name =>
    if isReserved name then
      let sent := c.Send "Very funny...".toList w
      match sent.1 with
      | some err =>
        .ok (sent.2.log
          ⟨.error, commandFields "unlearn".toList, "Send message: %v".toList, .err err⟩)
      | none => .ok sent.2
    else
      let resolved := c.Guild w
      match resolved.1 with
      | .error err =>
        .ok (resolved.2.log
          ⟨.error, commandFields "learn".toList, "Get guild: %v".toList, .err err⟩)
      | .ok g =>
        let got := c.DatabaseGet g.ID name resolved.2
        match got.1 with
        | .error .ErrItemNotFound =>
          match sliceFrom args 1 with
          | .error p => .error p
          | .ok rest =>
            let stored := c.DatabaseNew
              { Message := name, Response := Join rest " ".toList, GuildID := g.ID } got.2
            match stored.1 with
            | some err =>
              .ok (stored.2.log
                ⟨.error, commandFields "learn".toList, "Store item: %v".toList, .err err⟩)
            | none =>
              let sent := c.Send ("Learned ".toList ++ name ++ " successfully".toList) stored.2
              match sent.1 with
              | some err =>
                .ok (sent.2.log
                  ⟨.error, commandFields "learn".toList, "Send message: %v".toList, .err err⟩)
              | none => .ok sent.2
        | .error err =>
          .ok (got.2.log ⟨.error, commandFields "learn".toList, "Get item: %v".toList, .err err⟩)
        | .ok _ =>
          let sent := c.Send "haha, no".toList got.2
          match sent.1 with
          | some _ =>
            .ok (sent.2.log
              ⟨.error, commandFields "learn".toList, "Send message: %v".toList,
                .str "haha, no".toList⟩)
          | none => .ok sent.2

/-- The action of the `unlearn` command. -/
def unlearnAction {σ : Type} (c : Context σ) (args : List Str) (w : World σ) :
    Except Panic (World σ) :=
  match index args 0 with
  | .error p => .error p
  | .ok name =>
    if isReserved name then
      let sent := c.Send "Very funny...".toList w
      match sent.1 with
      | some err =>
        .ok (sent.2.log
          ⟨.error, commandFields "unlearn".toList, "Send message: %v".toList, .err err⟩)
      | none => .ok sent.2
    else
      let resolved := c.Guild w
      match resolved.1 with
      | .error err =>
        .ok (resolved.2.log
          ⟨.error, commandFields "unlearn".toList, "Get guild: %v".toList, .err err⟩)
      | .ok g =>
        let removed := c.DatabaseRemove g.ID name resolved.2
        match removed.1 with
        | some err =>
          .ok (removed.2.log
            ⟨.error, commandFields "unlearn".toList, "Get guild: %v".toList, .err err⟩)
        | none =>
          let sent := c.Send ("Unlearned ".toList ++ name ++ " successfully".toList) removed.2
          match sent.1 with
          | some err =>
            .ok (sent.2.log
              ⟨.error, commandFields "unlearn".toList, "Send message: %v".toList, .err err⟩)
          | none => .ok sent.2

/-- The method learnCommands: the `learn` and `unlearn` commands. -/
def learnCommands {σ : Type} : List (Command σ) :=
  [ NewCommand "learn".toList "Teach a message-response command to the bot".toList learnAction,
    NewCommand "unlearn".toList "Unlearn a message-response command".toList unlearnAction ]

/-! ## The bot -/

/-- The type bot: the configured prefix, the registry of static commands and
the store handle. -/
structure bot (σ : Type) where
  Prefix : Str
  commands : List (Command σ)
  db : Service σ

/-- Modelled from the spec: the registry lookup `b.Command(name)` of `bot/bot.go`,
an exact case-sensitive match of the name against the registered commands; a
miss is reported as an error. -/
def bot.Command {σ : Type} (b : bot σ) (name : Str) (w : World σ) :
    Except Error (Command σ) × World σ :=
  (match b.commands.find? (fun c => c.Name = name) with
    | some c => .ok c
    | none => .error (.other "command not found".toList),
   w.emit (.command name))

/-- Modelled from the spec: the constructor `b.NewContext` of `bot/context.go`. -/
def bot.NewContext {σ : Type} (b : bot σ) (m : MessageCreate) (s : Session) : Context σ :=
  { m := m, s := s, db := b.db }

/-- The method `bot.dbCommand`: resolve the channel of the message (cache first,
then the gateway), read the item `(guild, msg)` from the store and wrap it. -/
def bot.dbCommand {σ : Type} (b : bot σ) (s : Session) (m : MessageCreate) (msg : Str)
    (w : World σ) : Except Error (Mu2.Command σ) × World σ :=
  let w1 := w.emit (.stateChannel m.ChannelID)
  let resolved : Except Error Channel × World σ :=
    match s.StateChannel w.trace m.ChannelID with
    | .ok ch => (.ok ch, w1)
    | .error _ => (s.Channel w1.trace m.ChannelID, w1.emit (.channel m.ChannelID))
  match resolved.1 with
  | .error err => (.error err, resolved.2)
  | .ok ch =>
    let w3 := resolved.2.emit (.dbGet ch.GuildID msg)
    match b.db.Get resolved.2.db ch.GuildID msg with
    | .error .ErrItemNotFound => (.error .ErrItemNotFound, w3)
    | .error err => (.error err, w3)
    | .ok i => (.ok (Mu2.dbCommand i), w3)

/-- The handler returned by `commandHandler`, run on one inbound message. -/
def bot.commandHandler {σ : Type} (b : bot σ) (s : Session) (m : MessageCreate)
    (w : World σ) : Except Panic (World σ) :=
  if m.AuthorID = s.UserID then .ok w
  else
    let p := b.Prefix
    if !HasPrefix m.Content p then .ok w
    else
      let msg := Split (TrimPrefix m.Content p) ' '
      match index msg 0 with
      | .error f => .error f
      | .ok name =>
        let found := b.Command name w
        match found.1 with
        | .ok c =>
          match sliceFrom msg 1 with
          | .error f => .error f
          | .ok args => c.Run (b.NewContext m s) args found.2
        | .error _ =>
          let learned := b.dbCommand s m name found.2
          match learned.1 with
          | .error .ErrItemNotFound =>
            .ok (learned.2.log ⟨.debug, handlerFields, "Command not found: %s".toList, .str name⟩)
          | .error err =>
            .ok (learned.2.log ⟨.error, handlerFields, "Get command: %v".toList, .err err⟩)
          | .ok c =>
            match sliceFrom msg 1 with
            | .error f => .error f
            | .ok args => c.Run (b.NewContext m s) args learned.2

/-- Dispatch a sequence of inbound messages one after the other; a panic ends
the run. -/
def bot.dispatchAll {σ : Type} (b : bot σ) (s : Session) :
    List MessageCreate → World σ → Except Panic (World σ)
  | [], w => .ok w
  | m :: ms, w =>
    match b.commandHandler s m w with
    | .error f => .error f
    | .ok w1 => bot.dispatchAll b s ms w1

/-! ## A store and a gateway to run the code on -/

/-- Modelled from the spec: a store of the missing package `db`, keyed by the
pair (guildID, message).  The state is the list of stored items, newest first;
`Get` answers the newest item under the key or the not-found sentinel. -/
def memStore : Service (List Item) where
  Get := fun items g k =>
    match items.find? (fun i => i.GuildID = g ∧ i.Message = k) with
    | some i => .ok i
    | none => .error .ErrItemNotFound
  New := fun items i => (none, i :: items)
  Remove := fun items g k => (none, items.filter (fun i => ¬ (i.GuildID = g ∧ i.Message = k)))

/-- A gateway in which the bot is `bot`, every channel belongs to guild `G1`
and is cached, and every send succeeds. -/
def testSession : Session where
  UserID := "bot".toList
  StateChannel := fun _ id => .ok { ID := id, GuildID := "G1".toList }
  Channel := fun _ id => .ok { ID := id, GuildID := "G1".toList }
  Guild := fun _ _ => .ok { ID := "G1".toList }
  ChannelMessageSend := fun _ _ _ => none

/-- A static command `ping` that replies `pong`. -/
def pingCommand {σ : Type} : Command σ :=
  NewCommand "ping".toList "Replies pong".toList fun c _ w => .ok (c.Send "pong".toList w).2

/-- A bot with prefix `!`, the commands learn, unlearn and ping, and the
in-memory store. -/
def testBot : bot (List Item) where
  Prefix := "!".toList
  commands := learnCommands ++ [pingCommand]
  db := memStore

/-- A message of user `u1` in channel `c1`. -/
def userMessage (text : String) : MessageCreate :=
  { AuthorID := "u1".toList, ChannelID := "c1".toList, Content := text.toList }

/-- The world before anything happened: a given store, no calls, no log. -/
def freshWorld {σ : Type} (db : σ) : World σ := { db := db, trace := [], logs := [] }

/-- A static command whose name has a space in it: it replies `hi there`. -/
def sayHiCommand {σ : Type} : Command σ :=
  NewCommand "say hi".toList "Greets".toList fun c _ w => .ok (c.Send "hi there".toList w).2

/-- A bot whose registry holds the commands learn, unlearn and `say hi`. -/
def sayHiBot : bot (List Item) where
  Prefix := "!".toList
  commands := learnCommands ++ [sayHiCommand]
  db := memStore

/-- The store of guild `G1` after `ping` was learned there. -/
def pingLearned : List Item :=
  [{ Message := "ping".toList, Response := "learned pong".toList, GuildID := "G1".toList }]

/-! ## What the core expects of a store -/

/-- Modelled from the spec: the contract of a store keyed by the pair
(guildID, message).  A successful `New` is observed by the next `Get` of its
key (read-your-writes), a successful `Remove` leaves its key not found, and
neither call changes what `Get` answers for any other key. -/
structure Service.Keyed {σ : Type} (d : Service σ) : Prop where
  new_get : ∀ st i, (d.New st i).1 = none → d.Get (d.New st i).2 i.GuildID i.Message = .ok i
  new_frame : ∀ st i g k, ¬ (g = i.GuildID ∧ k = i.Message) →
    d.Get (d.New st i).2 g k = d.Get st g k
  remove_get : ∀ st g k, (d.Remove st g k).1 = none →
    d.Get (d.Remove st g k).2 g k = .error .ErrItemNotFound
  remove_frame : ∀ st g k g' k', ¬ (g' = g ∧ k' = k) →
    d.Get (d.Remove st g k).2 g' k' = d.Get st g' k'

/-- No key named `learn`, `unlearn`, `help` or `info` holds an item in the
store state `st`, in any guild. -/
def ReservedFree {σ : Type} (d : Service σ) (st : σ) : Prop :=
  ∀ g n, isReserved n = true → ∀ i, d.Get st g n ≠ .ok i

/-- The item `ping -> pong` of guild `G1`. -/
def pingPong : Item :=
  { Message := "ping".toList, Response := "pong".toList, GuildID := "G1".toList }

/-- The item `greet -> hi` of guild `G1`. -/
def greetHi : Item :=
  { Message := "greet".toList, Response := "hi".toList, GuildID := "G1".toList }

/-- The message `m` is sent in guild `G`: whenever asked, the gateway resolves
its guild to `G` and its channel, from the cache or else by a request, to a
channel of `G`. -/
def InGuild (s : Session) (m : MessageCreate) (G : Str) : Prop :=
  (∀ h, s.Guild h m = .ok { ID := G }) ∧
    ∀ h, (∃ ch, s.StateChannel h m.ChannelID = .ok ch ∧ ch.GuildID = G) ∨
      ((∃ e, s.StateChannel h m.ChannelID = .error e) ∧
        ∀ h', ∃ ch, s.Channel h' m.ChannelID = .ok ch ∧ ch.GuildID = G)

/-- A store of guild `G1` that holds an item named `help`. -/
def helpLearned : List Item :=
  [{ Message := "help".toList, Response := "learned help".toList, GuildID := "G1".toList }]

/-- The context of the test bot for a message of user `u1`. -/
def testContext (text : String) : Context (List Item) :=
  testBot.NewContext (userMessage text) testSession

/-- A static command `foo` that replies with its last argument. -/
def fooCommand {σ : Type} : Command σ :=
  NewCommand "foo".toList "Echoes its last argument".toList fun c args w =>
    .ok (c.Send (args.getLastD []) w).2

/-- A bot with prefix `!` whose registry holds the command `foo`. -/
def fooBot : bot (List Item) where
  Prefix := "!".toList
  commands := [fooCommand]
  db := memStore

/-- A message of the bot itself in channel `c1`. -/
def botMessage (text : String) : MessageCreate :=
  { AuthorID := "bot".toList, ChannelID := "c1".toList, Content := text.toList }

/-- The channel the learned-command resolver works with after the calls `h`:
the cached one or, when the cache fails, the answer of the gateway to the
request that follows the cache lookup. -/
def Session.resolveChannel (s : Session) (h : List Event) (id : Str) :
    Except Error Mu2.Channel :=
  match s.StateChannel h id with
  | .ok ch => .ok ch
  | .error _ => s.Channel (h ++ [.stateChannel id]) id

/-- A gateway like the test one in which no channel can be resolved. -/
def offlineSession : Session where
  UserID := "bot".toList
  StateChannel := fun _ _ => .error (.other "state cache miss".toList)
  Channel := fun _ _ => .error (.other "HTTP 500".toList)
  Guild := fun _ _ => .error (.other "HTTP 500".toList)
  ChannelMessageSend := fun _ _ _ => none

/-- A store whose reads fail with an infrastructure error. -/
def brokenStore : Service (List Item) where
  Get := fun _ _ _ => .error (.other "connection refused".toList)
  New := fun items _ => (some (.other "connection refused".toList), items)
  Remove := fun items _ _ => (some (.other "connection refused".toList), items)

/-- The test bot on the broken store. -/
def brokenBot : bot (List Item) where
  Prefix := "!".toList
  commands := learnCommands ++ [pingCommand]
  db := brokenStore

/-- A store keyed like the in-memory one that reports the removal of a key it
does not hold with the not-found sentinel. -/
def strictStore : Service (List Item) where
  Get := memStore.Get
  New := memStore.New
  Remove := fun items g k =>
    match items.find? (fun i => i.GuildID = g ∧ i.Message = k) with
    | some _ => memStore.Remove items g k
    | none => (some .ErrItemNotFound, items)

/-- The test bot on the strict store. -/
def strictBot : bot (List Item) where
  Prefix := "!".toList
  commands := learnCommands ++ [pingCommand]
  db := strictStore

/-- A gateway in which the bot is `bot`, every channel belongs to guild `G`
and is cached, and every send succeeds. -/
def guildSession (G : Str) : Session where
  UserID := "bot".toList
  StateChannel := fun _ id => .ok { ID := id, GuildID := G }
  Channel := fun _ id => .ok { ID := id, GuildID := G }
  Guild := fun _ _ => .ok { ID := G }
  ChannelMessageSend := fun _ _ _ => none

/-- The replies a learned name gets, given the store's answer for its key:
the stored response, or nothing. -/
def learnedReplies (answer : Except Error Item) : List Str :=
  match answer with
  | .ok i => [i.Response]
  | .error _ => []

/-- The world the test bot is in after `learn greet hi` ran in guild `G1` on
the empty store. -/
def greetLearnedWorld : World (List Item) :=
  { db := [greetHi]
    trace := [.guild "c1".toList, .dbGet "G1".toList "greet".toList, .dbNew greetHi,
      .send "c1".toList "Learned greet successfully".toList]
    logs := [] }

/-! ## The package commands/help -/

/-- The type discordgo.MessageEmbedField. -/
structure MessageEmbedField where
  Name : Str
  Value : Str
  Inline : Bool
  deriving DecidableEq, Repr

/-- The fields of discordgo.MessageEmbed the help action sets. -/
structure MessageEmbed where
  Title : Str
  Fields : List MessageEmbedField
  deriving DecidableEq, Repr

/-- The methods of the interface bf.Command that the help action calls. -/
structure bf.Command where
  Name : Str
  Trigger : Str
  Use : Str
  Disabled : Bool
  deriving DecidableEq, Repr

/-- The part of bf.Context the help action uses: the commands of the bot
`ctx.Bot.Commands` and the answer of `ctx.SendEmbed`, which may depend on the
embeds sent before. -/
structure bf.Context where
  Commands : List bf.Command
  SendEmbed : List MessageEmbed → MessageEmbed → Option Error

/-- What the help action leaves behind: the embeds handed to `ctx.SendEmbed`
and the errors written to the log. -/
structure bf.World where
  sent : List MessageEmbed
  logged : List Error
  deriving DecidableEq, Repr

/-- The field the help action makes for one command. -/
def help.field (com : bf.Command) : MessageEmbedField :=
  { Name := com.Trigger ++ " - ".toList ++ com.Name, Value := com.Use, Inline := true }

/-- The loop `for _, com := range ctx.Bot.Commands` of the help action, with
the slice `embedItems` built so far. -/
def help.loop : List bf.Command → List MessageEmbedField → List MessageEmbedField
  | [], embedItems => embedItems
  | com :: rest, embedItems =>
    if com.Disabled then help.loop rest embedItems
    else help.loop rest (embedItems ++ [help.field com])

/-- The action of the command `help` of the package commands/help. -/
def help.Action (ctx : bf.Context) (w : bf.World) : bf.World :=
  let embedItems := help.loop ctx.Commands []
  let embed : MessageEmbed := { Fields := embedItems, Title := "Commands".toList }
  match ctx.SendEmbed w.sent embed with
  | some err => { sent := w.sent ++ [embed], logged := w.logged ++ [err] }
  | none => { w with sent := w.sent ++ [embed] }

/-- The command `help` itself, as the package registers it. -/
def help.helpCommand : bf.Command :=
  { Name := "help".toList, Trigger := "help".toList, Use := "Lists all commands".toList,
    Disabled := false }

/-- A command that is switched off. -/
def help.secretCommand : bf.Command :=
  { Name := "secret".toList, Trigger := "s".toList, Use := "Not for everyone".toList,
    Disabled := true }

/-- A context with the commands help, secret (disabled) and help again, in
which every send succeeds. -/
def help.testContext : bf.Context :=
  { Commands := [help.helpCommand, help.secretCommand, help.helpCommand]
    SendEmbed := fun _ _ => none }

/-- An item of guild `G1` stored under the empty name. -/
def emptyNamed : Item :=
  { Message := [], Response := "you called?".toList, GuildID := "G1".toList }

/-! ## Facts about the string functions -/

theorem HasPrefix_append (p rest : Str) : HasPrefix (p ++ rest) p = true := by
  simp [HasPrefix]

theorem HasPrefix_iff (s p : Str) : HasPrefix s p = true ↔ ∃ rest, s = p ++ rest := by
  simp only [HasPrefix, List.isPrefixOf_iff_prefix]
  constructor
  · rintro ⟨t, rfl⟩; exact ⟨t, rfl⟩
  · rintro ⟨t, rfl⟩; exact ⟨t, rfl⟩

theorem TrimPrefix_append (p rest : Str) : TrimPrefix (p ++ rest) p = rest := by
  simp [TrimPrefix, HasPrefix_append]

theorem Split_ne_nil (s : Str) (sep : Char) : Split s sep ≠ [] := by
  cases s with
  | nil => simp [Split]
  | cons c cs =>
    simp only [Split]
    split
    · simp
    · split <;> simp

theorem Split_cons (c : Char) (cs : Str) (sep : Char) :
    Split (c :: cs) sep =
      if c = sep then [] :: Split cs sep
      else ((c :: (Split cs sep).headD []) :: (Split cs sep).tail) := by
  have h := Split_ne_nil cs sep
  rw [Split]
  split
  · rfl
  · cases hs : Split cs sep with
    | nil => exact absurd hs h
    | cons t ts => simp

theorem Split_length (s : Str) (sep : Char) : (Split s sep).length = s.count sep + 1 := by
  induction s with
  | nil => simp [Split]
  | cons c cs ih =>
    have h := Split_ne_nil cs sep
    rw [Split_cons]
    by_cases hc : c = sep
    · subst hc; simp [ih]
    · have hlen : (Split cs sep).tail.length + 1 = (Split cs sep).length := by
        cases hs : Split cs sep with
        | nil => exact absurd hs h
        | cons t ts => simp
      have : (c == sep) = false := by simpa using hc
      simp [hc, List.count_cons, this, hlen, ih]

theorem Split_no_sep (s : Str) (sep : Char) : ∀ t ∈ Split s sep, sep ∉ t := by
  induction s with
  | nil => simp [Split]
  | cons c cs ih =>
    have h := Split_ne_nil cs sep
    rw [Split_cons]
    by_cases hc : c = sep
    · subst hc; simpa using ih
    · cases hs : Split cs sep with
      | nil => exact absurd hs h
      | cons t ts =>
        rw [hs] at ih
        intro u hu
        simp only [hc, if_false, List.headD_cons, List.tail_cons, List.mem_cons] at hu
        rcases hu with rfl | hu
        · have := ih t (by simp)
          simp [Ne.symm hc, this]
        · exact ih u (by simp [hu])

theorem Join_Split (s : Str) (sep : Char) : Join (Split s sep) [sep] = s := by
  induction s with
  | nil => simp [Split, Join]
  | cons c cs ih =>
    have h := Split_ne_nil cs sep
    rw [Split_cons]
    by_cases hc : c = sep
    · subst hc
      cases hs : Split cs c with
      | nil => exact absurd hs h
      | cons t ts => rw [hs] at ih; simp [Join, ih]
    · cases hs : Split cs sep with
      | nil => exact absurd hs h
      | cons t ts =>
        rw [hs] at ih
        cases ts with
        | nil => simpa [hc, Join] using ih
        | cons u us => simp only [hc, if_false, List.headD_cons, List.tail_cons, Join] at ih ⊢; simp [← ih]

theorem Split_head (s : Str) (sep : Char) :
    (Split s sep).head? = some (s.takeWhile (fun c => c ≠ sep)) := by
  induction s with
  | nil => simp [Split]
  | cons c cs ih =>
    have h := Split_ne_nil cs sep
    rw [Split_cons]
    by_cases hc : c = sep
    · subst hc; simp
    · cases hs : Split cs sep with
      | nil => exact absurd hs h
      | cons t ts =>
        rw [hs] at ih
        simp only [List.head?_cons, Option.some.injEq] at ih
        simp [hc, List.takeWhile_cons, ih]

theorem Split_of_not_mem (s : Str) (sep : Char) (h : sep ∉ s) : Split s sep = [s] := by
  induction s with
  | nil => simp [Split]
  | cons c cs ih =>
    simp only [List.mem_cons, not_or] at h
    rw [Split_cons, ih h.2]
    simp [Ne.symm h.1]

theorem Split_append_sep (n t : Str) (sep : Char) (h : sep ∉ n) :
    Split (n ++ sep :: t) sep = n :: Split t sep := by
  induction n with
  | nil => simp [Split]
  | cons c cs ih =>
    simp only [List.mem_cons, not_or] at h
    rw [List.cons_append, Split_cons, ih h.2]
    simp [Ne.symm h.1]

/-! ## The worlds the calls leave behind -/

@[simp] theorem emit_db {σ : Type} (w : World σ) (e : Event) : (w.emit e).db = w.db := rfl

@[simp] theorem emit_trace {σ : Type} (w : World σ) (e : Event) :
    (w.emit e).trace = w.trace ++ [e] := rfl

@[simp] theorem emit_logs {σ : Type} (w : World σ) (e : Event) : (w.emit e).logs = w.logs := rfl

@[simp] theorem log_db {σ : Type} (w : World σ) (l : LogEntry) : (w.log l).db = w.db := rfl

@[simp] theorem log_trace {σ : Type} (w : World σ) (l : LogEntry) :
    (w.log l).trace = w.trace := rfl

@[simp] theorem Send_fst {σ : Type} (c : Context σ) (t : Str) (w : World σ) :
    (c.Send t w).1 = c.s.ChannelMessageSend w.trace c.m.ChannelID t := rfl

@[simp] theorem Send_snd {σ : Type} (c : Context σ) (t : Str) (w : World σ) :
    (c.Send t w).2 = w.emit (.send c.m.ChannelID t) := rfl

@[simp] theorem Guild_fst {σ : Type} (c : Context σ) (w : World σ) :
    (c.Guild w).1 = c.s.Guild w.trace c.m := rfl

@[simp] theorem Guild_snd {σ : Type} (c : Context σ) (w : World σ) :
    (c.Guild w).2 = w.emit (.guild c.m.ChannelID) := rfl

@[simp] theorem DatabaseGet_fst {σ : Type} (c : Context σ) (g k : Str) (w : World σ) :
    (c.DatabaseGet g k w).1 = c.db.Get w.db g k := rfl

@[simp] theorem DatabaseGet_snd {σ : Type} (c : Context σ) (g k : Str) (w : World σ) :
    (c.DatabaseGet g k w).2 = w.emit (.dbGet g k) := rfl

@[simp] theorem DatabaseNew_fst {σ : Type} (c : Context σ) (i : Item) (w : World σ) :
    (c.DatabaseNew i w).1 = (c.db.New w.db i).1 := rfl

@[simp] theorem DatabaseNew_db {σ : Type} (c : Context σ) (i : Item) (w : World σ) :
    (c.DatabaseNew i w).2.db = (c.db.New w.db i).2 := rfl

@[simp] theorem DatabaseNew_trace {σ : Type} (c : Context σ) (i : Item) (w : World σ) :
    (c.DatabaseNew i w).2.trace = w.trace ++ [.dbNew i] := rfl

@[simp] theorem DatabaseRemove_fst {σ : Type} (c : Context σ) (g k : Str) (w : World σ) :
    (c.DatabaseRemove g k w).1 = (c.db.Remove w.db g k).1 := rfl

@[simp] theorem DatabaseRemove_db {σ : Type} (c : Context σ) (g k : Str) (w : World σ) :
    (c.DatabaseRemove g k w).2.db = (c.db.Remove w.db g k).2 := rfl

@[simp] theorem DatabaseRemove_trace {σ : Type} (c : Context σ) (g k : Str) (w : World σ) :
    (c.DatabaseRemove g k w).2.trace = w.trace ++ [.dbRemove g k] := rfl

@[simp] theorem Command_snd {σ : Type} (b : bot σ) (name : Str) (w : World σ) :
    (b.Command name w).2 = w.emit (.command name) := rfl

@[simp] theorem NewContext_db {σ : Type} (b : bot σ) (m : MessageCreate) (s : Session) :
    (b.NewContext m s).db = b.db := rfl

@[simp] theorem NewContext_m {σ : Type} (b : bot σ) (m : MessageCreate) (s : Session) :
    (b.NewContext m s).m = m := rfl

@[simp] theorem NewContext_s {σ : Type} (b : bot σ) (m : MessageCreate) (s : Session) :
    (b.NewContext m s).s = s := rfl

/-! ## The handler, step by step -/

/-- The tokens of a text: the piece before the first space, then the rest. -/
theorem tokens_cons (rest : Str) :
    Split rest ' ' = rest.takeWhile (fun c => c ≠ ' ') :: (Split rest ' ').tail := by
  have h := Split_head rest ' '
  cases hs : Split rest ' ' with
  | nil => exact absurd hs (Split_ne_nil rest ' ')
  | cons t ts => rw [hs] at h; simp at h; simp [h]

/-- A message of another author that starts with the prefix reaches the
registry lookup of its first token. -/
theorem commandHandler_tokens {σ : Type} (b : bot σ) (s : Session) (m : MessageCreate)
    (w : World σ) (rest name : Str) (args : List Str)
    (hauthor : m.AuthorID ≠ s.UserID) (hcontent : m.Content = b.Prefix ++ rest)
    (htokens : Split rest ' ' = name :: args) :
    b.commandHandler s m w =
      match (b.Command name w).1 with
      | .ok c => c.Run (b.NewContext m s) args (w.emit (.command name))
      | .error _ =>
        match (b.dbCommand s m name (w.emit (.command name))).1 with
        | .error .ErrItemNotFound =>
          .ok ((b.dbCommand s m name (w.emit (.command name))).2.log
            ⟨.debug, handlerFields, "Command not found: %s".toList, .str name⟩)
        | .error err =>
          .ok ((b.dbCommand s m name (w.emit (.command name))).2.log
            ⟨.error, handlerFields, "Get command: %v".toList, .err err⟩)
        | .ok c =>
          c.Run (b.NewContext m s) args (b.dbCommand s m name (w.emit (.command name))).2 := by
  simp only [bot.commandHandler, hauthor, if_false, hcontent, HasPrefix_append,
    TrimPrefix_append, htokens, index, sliceFrom]
  simp

/-- A registry hit runs the registered command on the remaining tokens. -/
theorem commandHandler_static {σ : Type} (b : bot σ) (s : Session) (m : MessageCreate)
    (w : World σ) (rest name : Str) (args : List Str) (c : Command σ)
    (hauthor : m.AuthorID ≠ s.UserID) (hcontent : m.Content = b.Prefix ++ rest)
    (htokens : Split rest ' ' = name :: args)
    (hfind : b.commands.find? (fun c => c.Name = name) = some c) :
    b.commandHandler s m w = c.Run (b.NewContext m s) args (w.emit (.command name)) := by
  rw [commandHandler_tokens b s m w rest name args hauthor hcontent htokens]
  simp [bot.Command, hfind]

/-- A registry miss hands the first token to the learned-command resolver. -/
theorem commandHandler_miss {σ : Type} (b : bot σ) (s : Session) (m : MessageCreate)
    (w : World σ) (rest name : Str) (args : List Str)
    (hauthor : m.AuthorID ≠ s.UserID) (hcontent : m.Content = b.Prefix ++ rest)
    (htokens : Split rest ' ' = name :: args)
    (hfind : b.commands.find? (fun c => c.Name = name) = none) :
    b.commandHandler s m w =
      match (b.dbCommand s m name (w.emit (.command name))).1 with
      | .error .ErrItemNotFound =>
        .ok ((b.dbCommand s m name (w.emit (.command name))).2.log
          ⟨.debug, handlerFields, "Command not found: %s".toList, .str name⟩)
      | .error err =>
        .ok ((b.dbCommand s m name (w.emit (.command name))).2.log
          ⟨.error, handlerFields, "Get command: %v".toList, .err err⟩)
      | .ok c =>
        c.Run (b.NewContext m s) args (b.dbCommand s m name (w.emit (.command name))).2 := by
  rw [commandHandler_tokens b s m w rest name args hauthor hcontent htokens]
  simp [bot.Command, hfind]

/-- Splitting the join of space-free tokens gives the tokens back. -/
theorem Split_Join (a : Str) (rest : List Str) (sep : Char)
    (h : ∀ t ∈ a :: rest, sep ∉ t) : Split (Join (a :: rest) [sep]) sep = a :: rest := by
  induction rest generalizing a with
  | nil => simpa [Join] using Split_of_not_mem a sep (h a (by simp))
  | cons b r ih =>
    have hb : ∀ t ∈ b :: r, sep ∉ t := fun t ht => h t (List.mem_cons_of_mem a ht)
    simp only [Join, List.append_assoc, List.singleton_append]
    rw [Split_append_sep a _ sep (h a (by simp)), ih b hb]

/-! ## C1: static commands win over learned ones -/

/-- C1, as stated, fails for a registered name that contains a space: the
registry answers `say hi` with the static command, whose action replies
`hi there`, yet dispatching `!say hi` looks up the token `say`, misses the
registry, asks the store for `say` and sends nothing. -/
theorem static_name_with_space_is_not_dispatched :
    (sayHiBot.Command "say hi".toList (freshWorld [])).1.toOption.map (fun c => c.Name)
        = some "say hi".toList ∧
      ((sayHiCommand.Run (sayHiBot.NewContext (userMessage "!say hi") testSession) []
          ((freshWorld ([] : List Item)).emit (.command "say hi".toList))).toOption.map
        World.replies) = some ["hi there".toList] ∧
      ((sayHiBot.commandHandler testSession (userMessage "!say hi") (freshWorld [])).toOption.map
        fun w => (w.trace, w.replies)) =
        some ([.command "say".toList, .stateChannel "c1".toList,
          .dbGet "G1".toList "say".toList], []) := by
  decide

/-- C1 (amended): for every prefix, registry, store and world, every name `n`
without a space that the registry answers with a command `c`, and every list
of space-free arguments, dispatching a message of another author whose text
is the prefix followed by `n` and the arguments, joined by single spaces, runs
the action of `c` on exactly those arguments in a world in which the only call
made so far is the registry lookup: the store is not read and no learned
command is built, whatever the store holds under `n`. -/
theorem static_command_wins {σ : Type} (b : bot σ) (s : Session) (m : MessageCreate)
    (w : World σ) (n : Str) (args : List Str) (c : Command σ)
    (hauthor : m.AuthorID ≠ s.UserID)
    (hname : ' ' ∉ n) (hargs : ∀ a ∈ args, ' ' ∉ a)
    (hcontent : m.Content = b.Prefix ++ Join (n :: args) " ".toList)
    (hreg : b.commands.find? (fun c => c.Name = n) = some c) :
    b.commandHandler s m w = c.Run (b.NewContext m s) args (w.emit (.command n)) := by
  have htokens : Split (Join (n :: args) " ".toList) ' ' = n :: args := by
    apply Split_Join
    intro t ht
    rcases List.mem_cons.mp ht with rfl | ht
    · exact hname
    · exact hargs t ht
  exact commandHandler_static b s m w _ n args c hauthor hcontent htokens hreg

/-- Witness for C1: with `ping` learned in `G1`, `!ping a b` runs the static
`ping` on the arguments `a` and `b`. -/
theorem static_command_wins_witness :
    testBot.commandHandler testSession (userMessage "!ping a b") (freshWorld pingLearned) =
      pingCommand.Run (testBot.NewContext (userMessage "!ping a b") testSession)
        ["a".toList, "b".toList] ((freshWorld pingLearned).emit (.command "ping".toList)) :=
  static_command_wins testBot testSession (userMessage "!ping a b") (freshWorld pingLearned)
    "ping".toList ["a".toList, "b".toList] pingCommand (by decide) (by decide) (by decide)
    (by decide) (by rfl)

/-! ## What the actions do to the store -/

/-- The learn action either leaves the store as it was or, for a first
argument outside the switch, a resolved guild and a key the store reports as
not found, makes the one call of `New` for that key. -/
theorem learnAction_db {σ : Type} (c : Context σ) (args : List Str) (w w' : World σ)
    (h : learnAction c args w = .ok w') :
    w'.db = w.db ∨
      ∃ name rest g, args = name :: rest ∧ isReserved name = false ∧
        c.s.Guild w.trace c.m = .ok g ∧
        c.db.Get w.db g.ID name = .error .ErrItemNotFound ∧
        w'.db = (c.db.New w.db ⟨name, Join rest " ".toList, g.ID⟩).2 := by
  cases args with
  | nil => simp [learnAction, index] at h
  | cons name rest =>
    simp only [learnAction, index, List.getElem?_cons_zero, sliceFrom, List.length_cons,
      Nat.le_add_left, if_true, List.drop_succ_cons, List.drop_zero] at h
    by_cases hres : isReserved name = true
    · left
      simp only [hres, if_true] at h
      split at h <;> cases h <;> simp
    · have hres' : isReserved name = false := by simpa using hres
      simp only [hres', Bool.false_eq_true, if_false] at h
      cases hg : c.s.Guild w.trace c.m with
      | error e =>
        left
        simp only [Guild_fst, hg] at h
        cases h; simp
      | ok g =>
        simp only [Guild_fst, hg, DatabaseGet_fst, Guild_snd, emit_db] at h
        cases hget : c.db.Get w.db g.ID name with
        | ok i =>
          left
          simp only [hget] at h
          split at h <;> cases h <;> simp
        | error e =>
          cases e with
          | other t =>
            left
            simp only [hget] at h
            cases h; simp
          | ErrItemNotFound =>
            right
            refine ⟨name, rest, g, rfl, hres', rfl, hget, ?_⟩
            simp only [hget] at h
            split at h
            · cases h; simp
            · split at h <;> cases h <;> simp

/-- The unlearn action either leaves the store as it was or, for a first
argument outside the switch and a resolved guild, makes the one call of
`Remove` for that key. -/
theorem unlearnAction_db {σ : Type} (c : Context σ) (args : List Str) (w w' : World σ)
    (h : unlearnAction c args w = .ok w') :
    w'.db = w.db ∨
      ∃ name rest g, args = name :: rest ∧ isReserved name = false ∧
        c.s.Guild w.trace c.m = .ok g ∧
        w'.db = (c.db.Remove w.db g.ID name).2 := by
  cases args with
  | nil => simp [unlearnAction, index] at h
  | cons name rest =>
    simp only [unlearnAction, index, List.getElem?_cons_zero] at h
    by_cases hres : isReserved name = true
    · left
      simp only [hres, if_true] at h
      split at h <;> cases h <;> simp
    · have hres' : isReserved name = false := by simpa using hres
      simp only [hres', Bool.false_eq_true, if_false] at h
      cases hg : c.s.Guild w.trace c.m with
      | error e =>
        left
        simp only [Guild_fst, hg] at h
        cases h; simp
      | ok g =>
        right
        refine ⟨name, rest, g, rfl, hres', rfl, ?_⟩
        simp only [Guild_fst, hg] at h
        split at h
        · cases h; simp
        · split at h <;> cases h <;> simp

/-- The action of an ephemeral learned command sends the stored response and
nothing else; the store stays as it was. -/
theorem dbCommand_run {σ : Type} (i : Item) (c : Context σ) (args : List Str) (w : World σ) :
    ∃ w', (dbCommand i).Run c args w = .ok w' ∧ w'.db = w.db ∧
      w'.trace = w.trace ++ [.send c.m.ChannelID i.Response] := by
  simp only [defaultCommand.Run, dbCommand, NewCommand]
  split
  · exact ⟨_, rfl, by simp, by simp⟩
  · exact ⟨_, rfl, by simp, by simp⟩

/-- The learned-command resolver never writes the store. -/
theorem bot_dbCommand_db {σ : Type} (b : bot σ) (s : Session) (m : MessageCreate) (msg : Str)
    (w : World σ) : (b.dbCommand s m msg w).2.db = w.db := by
  simp only [bot.dbCommand]
  cases hst : s.StateChannel w.trace m.ChannelID with
  | ok ch =>
    simp only
    split <;> simp
  | error e =>
    simp only
    cases hch : s.Channel (w.emit (.stateChannel m.ChannelID)).trace m.ChannelID with
    | ok ch => simp only; split <;> simp
    | error e2 => simp

/-! ## The in-memory store is keyed -/

theorem memStore_Get_cons (i : Item) (items : List Item) (g k : Str) :
    memStore.Get (i :: items) g k =
      if i.GuildID = g ∧ i.Message = k then .ok i else memStore.Get items g k := by
  by_cases h : i.GuildID = g ∧ i.Message = k
  · simp [memStore, List.find?_cons, h]
  · simp [memStore, List.find?_cons, h]

theorem memStore_Get_filter (items : List Item) (g k g' k' : Str) (h : ¬ (g' = g ∧ k' = k)) :
    memStore.Get (items.filter (fun i => ¬ (i.GuildID = g ∧ i.Message = k))) g' k' =
      memStore.Get items g' k' := by
  induction items with
  | nil => rfl
  | cons i rest ih =>
    by_cases hi : i.GuildID = g ∧ i.Message = k
    · have hne : ¬ (i.GuildID = g' ∧ i.Message = k') := by
        rintro ⟨h1, h2⟩
        exact h ⟨h1 ▸ hi.1, h2 ▸ hi.2⟩
      rw [List.filter_cons_of_neg (by simp [hi]), ih, memStore_Get_cons, if_neg hne]
    · rw [List.filter_cons_of_pos (by simp [hi]), memStore_Get_cons, memStore_Get_cons, ih]

theorem memStore_Get_removed (items : List Item) (g k : Str) :
    memStore.Get (items.filter (fun i => ¬ (i.GuildID = g ∧ i.Message = k))) g k =
      .error .ErrItemNotFound := by
  induction items with
  | nil => rfl
  | cons i rest ih =>
    by_cases hi : i.GuildID = g ∧ i.Message = k
    · rw [List.filter_cons_of_neg (by simp [hi]), ih]
    · rw [List.filter_cons_of_pos (by simp [hi]), memStore_Get_cons, if_neg hi, ih]

/-- The in-memory store keeps the contract of a keyed store. -/
theorem memStore_keyed : memStore.Keyed where
  new_get := by
    intro st i _
    show memStore.Get (i :: st) i.GuildID i.Message = .ok i
    rw [memStore_Get_cons]; simp
  new_frame := by
    intro st i g k h
    show memStore.Get (i :: st) g k = memStore.Get st g k
    rw [memStore_Get_cons, if_neg]
    rintro ⟨h1, h2⟩
    exact h ⟨h1.symm, h2.symm⟩
  remove_get := by
    intro st g k _
    exact memStore_Get_removed st g k
  remove_frame := by
    intro st g k g' k' h
    exact memStore_Get_filter st g k g' k' h

/-! ## The names of the switch never reach the store -/

theorem learnAction_free {σ : Type} (c : Context σ) (args : List Str) (w w' : World σ)
    (hkeyed : c.db.Keyed) (hfree : ReservedFree c.db w.db)
    (h : learnAction c args w = .ok w') : ReservedFree c.db w'.db := by
  rcases learnAction_db c args w w' h with hdb | ⟨name, rest, g, _, hres, _, _, hdb⟩
  · rw [hdb]; exact hfree
  · rw [hdb]
    intro g' n hn i
    rw [hkeyed.new_frame]
    · exact hfree g' n hn i
    · rintro ⟨_, h2⟩
      simp only at h2
      rw [h2, hres] at hn
      exact Bool.false_ne_true hn

theorem unlearnAction_free {σ : Type} (c : Context σ) (args : List Str) (w w' : World σ)
    (hkeyed : c.db.Keyed) (hfree : ReservedFree c.db w.db)
    (h : unlearnAction c args w = .ok w') : ReservedFree c.db w'.db := by
  rcases unlearnAction_db c args w w' h with hdb | ⟨name, rest, g, _, hres, _, hdb⟩
  · rw [hdb]; exact hfree
  · rw [hdb]
    intro g' n hn i
    rw [hkeyed.remove_frame]
    · exact hfree g' n hn i
    · rintro ⟨_, h2⟩
      rw [h2, hres] at hn
      exact Bool.false_ne_true hn

/-- One dispatch keeps the store free of items named after the switch, when
every registered command is learn, unlearn or a command that leaves the store
alone. -/
theorem commandHandler_free {σ : Type} (b : bot σ) (s : Session) (m : MessageCreate)
    (w w' : World σ) (hkeyed : b.db.Keyed)
    (hreg : ∀ c ∈ b.commands, c.a = learnAction ∨ c.a = unlearnAction ∨
      ∀ ctx args v v', c.a ctx args v = .ok v' → v'.db = v.db)
    (hfree : ReservedFree b.db w.db)
    (h : b.commandHandler s m w = .ok w') : ReservedFree b.db w'.db := by
  by_cases hauthor : m.AuthorID = s.UserID
  · simp only [bot.commandHandler, hauthor, if_true] at h
    cases h; exact hfree
  by_cases hpre : HasPrefix m.Content b.Prefix = true
  · obtain ⟨rest, hcontent⟩ := (HasPrefix_iff _ _).mp hpre
    rw [commandHandler_tokens b s m w rest _ _ hauthor hcontent (tokens_cons rest)] at h
    cases hfind : b.commands.find? (fun c => c.Name = rest.takeWhile (fun c => c ≠ ' ')) with
    | some c =>
      have hmem : c ∈ b.commands := List.mem_of_find?_eq_some hfind
      simp only [bot.Command, hfind, defaultCommand.Run] at h
      rcases hreg c hmem with ha | ha | ha
      · rw [ha] at h
        exact learnAction_free (b.NewContext m s) _ _ _ hkeyed (by simpa using hfree) h
      · rw [ha] at h
        exact unlearnAction_free (b.NewContext m s) _ _ _ hkeyed (by simpa using hfree) h
      · rw [ha _ _ _ _ h]; simpa using hfree
    | none =>
      simp only [bot.Command, hfind] at h
      have hdb := bot_dbCommand_db b s m (rest.takeWhile (fun c => c ≠ ' '))
        (w.emit (.command (rest.takeWhile (fun c => c ≠ ' '))))
      split at h
      · cases h; rw [log_db, hdb, emit_db]; exact hfree
      · cases h; rw [log_db, hdb, emit_db]; exact hfree
      · rename_i c hc
        have hc' : ∃ i, c = dbCommand i := by
          simp only [bot.dbCommand] at hc
          split at hc
          · simp at hc
          · split at hc
            · simp at hc
            · simp at hc
            · simp only [Except.ok.injEq] at hc; exact ⟨_, hc.symm⟩
        obtain ⟨i, rfl⟩ := hc'
        obtain ⟨v, hv, hvdb, _⟩ := dbCommand_run i (b.NewContext m s) (Split rest ' ').tail
          (b.dbCommand s m (rest.takeWhile (fun c => c ≠ ' '))
            (w.emit (.command (rest.takeWhile (fun c => c ≠ ' '))))).2
        rw [hv] at h
        cases h
        rw [hvdb, hdb, emit_db]; exact hfree
  · simp only [bot.commandHandler, hauthor, if_false, hpre] at h
    simp at h
    cases h; exact hfree

theorem dispatchAll_free {σ : Type} (b : bot σ) (s : Session) (hkeyed : b.db.Keyed)
    (hreg : ∀ c ∈ b.commands, c.a = learnAction ∨ c.a = unlearnAction ∨
      ∀ ctx args v v', c.a ctx args v = .ok v' → v'.db = v.db)
    (ms : List MessageCreate) (w w' : World σ) (hfree : ReservedFree b.db w.db)
    (h : b.dispatchAll s ms w = .ok w') : ReservedFree b.db w'.db := by
  induction ms generalizing w with
  | nil => simp only [bot.dispatchAll] at h; cases h; exact hfree
  | cons m rest ih =>
    simp only [bot.dispatchAll] at h
    cases hstep : b.commandHandler s m w with
    | error f => simp [hstep] at h
    | ok w1 =>
      simp only [hstep] at h
      exact ih w1 (commandHandler_free b s m w w1 hkeyed hreg hfree hstep) h

/-- The registry of the test bot: learn, unlearn and a command that leaves the
store alone. -/
theorem testBot_registry : ∀ c ∈ testBot.commands,
    c.a = learnAction ∨ c.a = unlearnAction ∨
      ∀ ctx args v v', c.a ctx args v = .ok v' → v'.db = v.db := by
  intro c hc
  simp only [testBot, learnCommands, List.cons_append, List.nil_append, List.mem_cons,
    List.mem_singleton, List.not_mem_nil, or_false] at hc
  rcases hc with rfl | rfl | rfl
  · exact Or.inl rfl
  · exact Or.inr (Or.inl rfl)
  · refine Or.inr (Or.inr ?_)
    intro ctx args v v' h
    simp only [pingCommand, NewCommand, Except.ok.injEq] at h
    rw [← h]; rfl

theorem ReservedFree_nil : ReservedFree memStore ([] : List Item) := by
  intro g n _ i h
  simp [memStore] at h

/-! ## C2: which names the learn action refuses -/

/-- C2, as stated, fails for a registered name outside the switch: the test
registry answers `ping` with a static command and the store is empty, yet the
learn action called with first argument `ping` sends no `Very funny...`, calls
`New`, and dispatching `!learn ping pong` leaves a store that holds an item
named `ping`. -/
theorem learn_accepts_registered_ping :
    (testBot.Command "ping".toList (freshWorld [])).1.toOption.map (fun c => c.Name)
        = some "ping".toList ∧
      ((learnAction (testBot.NewContext (userMessage "!learn ping pong") testSession)
          ["ping".toList, "pong".toList] (freshWorld [])).toOption.map
        fun w => (w.db, w.trace)) =
        some ([pingPong], [.guild "c1".toList, .dbGet "G1".toList "ping".toList,
          .dbNew pingPong, .send "c1".toList "Learned ping successfully".toList]) ∧
      ((testBot.dispatchAll testSession [userMessage "!learn ping pong"]
          (freshWorld [])).toOption.map fun w => w.db) = some [pingPong] ∧
      memStore.Get [pingPong] "G1".toList "ping".toList = .ok pingPong :=
  ⟨by decide, by decide, by decide, rfl⟩

/-- C2 (amended): the learn action refuses exactly the four names of its
switch, whatever the registry holds.  Called with first argument `learn`,
`unlearn`, `help` or `info` it sends the one reply `Very funny...` and leaves
the store as it was.  Consequently, for a keyed store and a registry in which
every command is learn, unlearn or a command that leaves the store alone, no
sequence of dispatched messages that starts from a store with no item under
one of these four names ends in a store that holds one. -/
theorem learn_rejects_switch_names {σ : Type} (b : bot σ) (s : Session)
    (hkeyed : b.db.Keyed)
    (hreg : ∀ c ∈ b.commands, c.a = learnAction ∨ c.a = unlearnAction ∨
      ∀ ctx args v v', c.a ctx args v = .ok v' → v'.db = v.db) :
    (∀ (c : Context σ) (n : Str) (rest : List Str) (w : World σ), isReserved n = true →
      ∃ w', learnAction c (n :: rest) w = .ok w' ∧ w'.db = w.db ∧
        w'.trace = w.trace ++ [.send c.m.ChannelID "Very funny...".toList]) ∧
    (∀ (ms : List MessageCreate) (w w' : World σ), ReservedFree b.db w.db →
      b.dispatchAll s ms w = .ok w' → ReservedFree b.db w'.db) := by
  refine ⟨?_, fun ms w w' hfree h => dispatchAll_free b s hkeyed hreg ms w w' hfree h⟩
  intro c n rest w hn
  simp only [learnAction, index, List.getElem?_cons_zero, hn, if_true]
  split
  · exact ⟨_, rfl, by simp, by simp⟩
  · exact ⟨_, rfl, by simp, by simp⟩

/-- Witness for C2: the test bot meets the hypotheses; after `!learn help x`
(refused) and `!learn greet hi` (stored) its store holds `greet` and nothing
under the four names. -/
theorem learn_rejects_switch_names_witness :
    testBot.db.Keyed ∧
      testBot.dispatchAll testSession
          [userMessage "!learn help x", userMessage "!learn greet hi"] (freshWorld []) =
        .ok { db := [greetHi]
              trace := [.command "learn".toList,
                .send "c1".toList "Very funny...".toList, .command "learn".toList,
                .guild "c1".toList, .dbGet "G1".toList "greet".toList, .dbNew greetHi,
                .send "c1".toList "Learned greet successfully".toList]
              logs := [] } ∧
      ReservedFree memStore [greetHi] :=
  ⟨memStore_keyed, rfl,
    (learn_rejects_switch_names testBot testSession memStore_keyed testBot_registry).2
      [userMessage "!learn help x", userMessage "!learn greet hi"] (freshWorld []) _
      ReservedFree_nil rfl⟩

/-! ## Replies -/

@[simp] theorem replies_log {σ : Type} (w : World σ) (l : LogEntry) :
    (w.log l).replies = w.replies := rfl

theorem replies_emit {σ : Type} (w : World σ) (e : Event) :
    (w.emit e).replies = w.replies ++ (e.reply?).toList := by
  simp only [World.replies, emit_trace, List.filterMap_append]
  cases h : e.reply? <;> simp [List.filterMap_cons, h]

theorem replies_of_trace {σ : Type} (w v : World σ) (es : List Event)
    (h : v.trace = w.trace ++ es) : v.replies = w.replies ++ es.filterMap Event.reply? := by
  simp [World.replies, h, List.filterMap_append]

/-! ## The learned-command resolver in a guild -/

/-- In guild `G` the resolver answers with what the store holds under
`(G, msg)`, writes nothing and sends nothing. -/
theorem bot_dbCommand_inGuild {σ : Type} (b : bot σ) (s : Session) (m : MessageCreate)
    (msg G : Str) (w : World σ) (hG : InGuild s m G) :
    (b.dbCommand s m msg w).1 =
        (match b.db.Get w.db G msg with
          | .ok i => .ok (dbCommand i)
          | .error e => .error e) ∧
      (b.dbCommand s m msg w).2.db = w.db ∧
      (b.dbCommand s m msg w).2.replies = w.replies := by
  refine ⟨?_, bot_dbCommand_db b s m msg w, ?_⟩
  · simp only [bot.dbCommand]
    rcases hG.2 w.trace with ⟨ch, hch, rfl⟩ | ⟨⟨e, he⟩, hnet⟩
    · simp only [hch, emit_db]
      cases hget : b.db.Get w.db ch.GuildID msg with
      | ok i => rfl
      | error e => cases e <;> rfl
    · obtain ⟨ch, hch, rfl⟩ := hnet (w.emit (.stateChannel m.ChannelID)).trace
      simp only [he, hch, emit_db]
      cases hget : b.db.Get w.db ch.GuildID msg with
      | ok i => rfl
      | error e => cases e <;> rfl
  · simp only [bot.dbCommand]
    rcases hG.2 w.trace with ⟨ch, hch, rfl⟩ | ⟨⟨e, he⟩, hnet⟩
    · simp only [hch, emit_db]
      split <;> simp [replies_emit, Event.reply?]
    · obtain ⟨ch, hch, rfl⟩ := hnet (w.emit (.stateChannel m.ChannelID)).trace
      simp only [he, hch, emit_db]
      split <;> simp [replies_emit, Event.reply?]

/-! ## C3: learn and unlearn without an argument -/

/-- C3: the code faults where the claim says it does not.  With no argument
the learn and the unlearn action both panic on `args[0]`, in every world, and
the handler has no recovery: dispatching `!learn` or `!unlearn` ends in the
panic `index out of range [0] with length 0`. -/
theorem learn_without_argument_panics :
    (∀ (c : Context (List Item)) (w : World (List Item)),
        learnAction c [] w = .error (.indexOutOfRange 0 0) ∧
        unlearnAction c [] w = .error (.indexOutOfRange 0 0)) ∧
      testBot.commandHandler testSession (userMessage "!learn") (freshWorld []) =
        .error (.indexOutOfRange 0 0) ∧
      testBot.commandHandler testSession (userMessage "!unlearn") (freshWorld []) =
        .error (.indexOutOfRange 0 0) ∧
      testBot.dispatchAll testSession [userMessage "!learn", userMessage "!ping"]
          (freshWorld []) = .error (.indexOutOfRange 0 0) :=
  ⟨fun _ _ => ⟨rfl, rfl⟩, rfl, rfl, rfl⟩

/-! ## The paths of the learn and unlearn actions -/

/-- The success path of learn: guild resolved, key not found, `New` succeeds. -/
theorem learnAction_stores {σ : Type} (c : Context σ) (n : Str) (rest : List Str)
    (w : World σ) (g : Guild)
    (hres : isReserved n = false)
    (hguild : c.s.Guild w.trace c.m = .ok g)
    (hget : c.db.Get w.db g.ID n = .error .ErrItemNotFound)
    (hnew : (c.db.New w.db ⟨n, Join rest " ".toList, g.ID⟩).1 = none) :
    ∃ w', learnAction c (n :: rest) w = .ok w' ∧
      w'.db = (c.db.New w.db ⟨n, Join rest " ".toList, g.ID⟩).2 ∧
      w'.trace = w.trace ++ [.guild c.m.ChannelID, .dbGet g.ID n,
        .dbNew ⟨n, Join rest " ".toList, g.ID⟩,
        .send c.m.ChannelID ("Learned ".toList ++ n ++ " successfully".toList)] := by
  simp only [learnAction, index, List.getElem?_cons_zero, hres, Bool.false_eq_true, if_false,
    Guild_fst, hguild, DatabaseGet_fst, Guild_snd, emit_db, hget, sliceFrom, List.length_cons,
    Nat.le_add_left, if_true, List.drop_succ_cons, List.drop_zero, DatabaseNew_fst,
    DatabaseGet_snd, hnew]
  split
  · exact ⟨_, rfl, by simp, by simp⟩
  · exact ⟨_, rfl, by simp, by simp⟩

/-- The success path of unlearn: guild resolved, `Remove` succeeds. -/
theorem unlearnAction_removes {σ : Type} (c : Context σ) (n : Str) (rest : List Str)
    (w : World σ) (g : Guild)
    (hres : isReserved n = false)
    (hguild : c.s.Guild w.trace c.m = .ok g)
    (hremove : (c.db.Remove w.db g.ID n).1 = none) :
    ∃ w', unlearnAction c (n :: rest) w = .ok w' ∧
      w'.db = (c.db.Remove w.db g.ID n).2 ∧
      w'.trace = w.trace ++ [.guild c.m.ChannelID, .dbRemove g.ID n,
        .send c.m.ChannelID ("Unlearned ".toList ++ n ++ " successfully".toList)] := by
  simp only [unlearnAction, index, List.getElem?_cons_zero, hres, Bool.false_eq_true, if_false,
    Guild_fst, hguild, Guild_snd, emit_db, DatabaseRemove_fst, hremove]
  split
  · exact ⟨_, rfl, by simp, by simp⟩
  · exact ⟨_, rfl, by simp, by simp⟩

/-! ## C4: learn, then invoke -/

/-- The tokens of `learn <n> <text>` for a name without a space. -/
theorem tokens_learn (verb n text : Str) (hverb : ' ' ∉ verb) (hn : ' ' ∉ n) :
    Split (verb ++ " ".toList ++ n ++ " ".toList ++ text) ' ' =
      verb :: n :: Split text ' ' := by
  have h : verb ++ " ".toList ++ n ++ " ".toList ++ text = verb ++ ' ' :: (n ++ ' ' :: text) := by
    simp [String.toList]
  rw [h, Split_append_sep verb _ ' ' hverb, Split_append_sep n _ ' ' hn]

/-- C4, as stated, fails for a name that contains a space.  The name `a b` is
neither reserved nor registered and the store is empty; `!learn a b x` stores
the response `b x` under the name `a`, and `!a b` is answered with `b x`,
which is not the join `x` of the response tokens. -/
theorem learn_name_with_space_changes_response :
    isReserved "a b".toList = false ∧
      (testBot.commands.find? fun c => c.Name = "a b".toList).isNone = true ∧
      ("!learn a b x".toList = "!".toList ++ "learn ".toList ++ "a b".toList ++ " ".toList ++
        Join ["x".toList] " ".toList) ∧
      ((testBot.dispatchAll testSession [userMessage "!learn a b x", userMessage "!a b"]
          (freshWorld [])).toOption.map fun w => (w.db, w.replies)) =
        some ([{ Message := "a".toList, Response := "b x".toList, GuildID := "G1".toList }],
          ["Learned a successfully".toList, "b x".toList]) ∧
      Join ["x".toList] " ".toList ≠ "b x".toList := by
  decide

/-- C4 (amended): for every prefix, guild `G`, list of response tokens `r` and
name `n` that contains no space, is none of learn, unlearn, help, info and is
not registered, and every store that observes its own writes, holds no item
`(G, n)` and accepts the `New`: dispatching in `G` the message
prefix+`learn `+n+` `+join(r) stores under `(G, n)` the response join(r),
and dispatching prefix+n next is answered with exactly one reply, that stored
response, equal to join(r). -/
theorem learn_then_invoke {σ : Type} (b : bot σ) (s : Session) (m1 m2 : MessageCreate)
    (w : World σ) (G n : Str) (r : List Str) (learn : Command σ)
    (hauthor1 : m1.AuthorID ≠ s.UserID) (hauthor2 : m2.AuthorID ≠ s.UserID)
    (hG1 : InGuild s m1 G) (hG2 : InGuild s m2 G)
    (hn : ' ' ∉ n) (hres : isReserved n = false)
    (hstatic : b.commands.find? (fun c => c.Name = n) = none)
    (hlearn : b.commands.find? (fun c => c.Name = "learn".toList) = some learn)
    (hact : learn.a = learnAction)
    (hrw : ∀ st i, (b.db.New st i).1 = none →
      b.db.Get (b.db.New st i).2 i.GuildID i.Message = .ok i)
    (hnone : b.db.Get w.db G n = .error .ErrItemNotFound)
    (hnew : (b.db.New w.db ⟨n, Join r " ".toList, G⟩).1 = none)
    (hc1 : m1.Content = b.Prefix ++ ("learn".toList ++ " ".toList ++ n ++ " ".toList ++
      Join r " ".toList))
    (hc2 : m2.Content = b.Prefix ++ n) :
    ∃ w1 w2, b.commandHandler s m1 w = .ok w1 ∧ b.commandHandler s m2 w1 = .ok w2 ∧
      b.db.Get w1.db G n = .ok ⟨n, Join r " ".toList, G⟩ ∧
      w1.replies = w.replies ++ ["Learned ".toList ++ n ++ " successfully".toList] ∧
      w2.replies = w1.replies ++ [Join r " ".toList] ∧
      w2.db = w1.db := by
  have hjoin : Join (Split (Join r " ".toList) ' ') " ".toList = Join r " ".toList :=
    Join_Split _ ' '
  -- the first message runs the learn action on `n` and the tokens of the response
  have hrun1 := commandHandler_static b s m1 w _ "learn".toList
    (n :: Split (Join r " ".toList) ' ') learn hauthor1 hc1
    (tokens_learn "learn".toList n _ (by decide) hn) hlearn
  obtain ⟨w1, hw1, hdb1, htr1⟩ := learnAction_stores (b.NewContext m1 s) n
    (Split (Join r " ".toList) ' ') (w.emit (.command "learn".toList)) ⟨G⟩ hres
    (hG1.1 _) hnone (by rw [hjoin]; exact hnew)
  rw [hjoin] at hdb1 htr1
  simp only [NewContext_db, emit_db] at hdb1
  have hget1 : b.db.Get w1.db G n = .ok ⟨n, Join r " ".toList, G⟩ := by
    rw [hdb1]; exact hrw w.db ⟨n, Join r " ".toList, G⟩ hnew
  -- the second message misses the registry and finds the stored item
  have hrun2 := commandHandler_miss b s m2 w1 n n [] hauthor2 hc2
    (Split_of_not_mem n ' ' hn) hstatic
  obtain ⟨hres2, hdb2, hrep2⟩ := bot_dbCommand_inGuild b s m2 n G (w1.emit (.command n)) hG2
  simp only [emit_db, hget1] at hres2
  rw [hres2] at hrun2
  simp only at hrun2
  obtain ⟨w2, hw2, hdbw2, htr2⟩ := dbCommand_run (σ := σ) ⟨n, Join r " ".toList, G⟩
    (b.NewContext m2 s) [] (b.dbCommand s m2 n (w1.emit (.command n))).2
  refine ⟨w1, w2, ?_, ?_, hget1, ?_, ?_, ?_⟩
  · rw [hrun1, defaultCommand.Run, hact]; exact hw1
  · rw [hrun2]; exact hw2
  · rw [replies_of_trace (w.emit (.command "learn".toList)) w1 _ htr1, replies_emit]
    simp [Event.reply?]
  · rw [replies_of_trace _ w2 _ htr2, hrep2, replies_emit]
    simp [Event.reply?]
  · rw [hdbw2, hdb2]; rfl

/-- Witness for C4: the scenario of the spec, `!learn greet Hello there` and
then `!greet`, on the test bot. -/
theorem learn_then_invoke_witness :
    ∃ w1 w2, testBot.commandHandler testSession (userMessage "!learn greet Hello there")
          (freshWorld []) = .ok w1 ∧
      testBot.commandHandler testSession (userMessage "!greet") w1 = .ok w2 ∧
      memStore.Get w1.db "G1".toList "greet".toList =
        .ok ⟨"greet".toList, Join ["Hello".toList, "there".toList] " ".toList, "G1".toList⟩ ∧
      w1.replies = (freshWorld ([] : List Item)).replies ++
        ["Learned ".toList ++ "greet".toList ++ " successfully".toList] ∧
      w2.replies = w1.replies ++ [Join ["Hello".toList, "there".toList] " ".toList] ∧
      w2.db = w1.db :=
  learn_then_invoke testBot testSession (userMessage "!learn greet Hello there")
    (userMessage "!greet") (freshWorld []) "G1".toList "greet".toList
    ["Hello".toList, "there".toList] (NewCommand "learn".toList
      "Teach a message-response command to the bot".toList learnAction)
    (by decide) (by decide)
    ⟨fun _ => rfl, fun _ => Or.inl ⟨_, rfl, rfl⟩⟩ ⟨fun _ => rfl, fun _ => Or.inl ⟨_, rfl, rfl⟩⟩
    (by decide) (by decide) (by rfl) (by rfl) rfl memStore_keyed.new_get rfl rfl
    (by decide) (by decide)

/-! ## C5: unlearn, then invoke -/

/-- C5, as stated, fails in two ways on the test bot, whose store removes what
it is asked to remove.  The name `ping x` is not registered, yet `!unlearn ping x`
removes the key `ping` and `!ping x` runs the static `ping`, which replies
`pong`.  The name `help` is not registered either, yet `!unlearn help` is
refused by the switch, nothing is removed, and `!help` is answered with the
response stored under `help`. -/
theorem unlearn_then_invoke_still_answers :
    (testBot.commands.find? fun c => c.Name = "ping x".toList).isNone = true ∧
      ((testBot.dispatchAll testSession [userMessage "!unlearn ping x", userMessage "!ping x"]
          (freshWorld [])).toOption.map fun w => w.replies) =
        some ["Unlearned ping successfully".toList, "pong".toList] ∧
      (testBot.commands.find? fun c => c.Name = "help".toList).isNone = true ∧
      (memStore.Remove helpLearned "G1".toList "help".toList) = (none, []) ∧
      ((testBot.dispatchAll testSession [userMessage "!unlearn help", userMessage "!help"]
          (freshWorld helpLearned)).toOption.map fun w => w.replies) =
        some ["Very funny...".toList, "learned help".toList] := by
  decide

/-- C5 (amended): for every prefix, guild `G` and name `n` that contains no
space, is none of learn, unlearn, help, info and is not registered, and every
store in which `Remove(G, n)` succeeds and removes the key: dispatching
prefix+`unlearn `+n in `G` confirms with `Unlearned <n> successfully`, and
dispatching prefix+n next misses the registry, gets not-found from the
resolver and ends with the debug line only: no action is run, no reply is
sent and the store is not written. -/
theorem unlearn_then_invoke {σ : Type} (b : bot σ) (s : Session) (m1 m2 : MessageCreate)
    (w : World σ) (G n : Str) (unlearn : Command σ)
    (hauthor1 : m1.AuthorID ≠ s.UserID) (hauthor2 : m2.AuthorID ≠ s.UserID)
    (hG1 : InGuild s m1 G) (hG2 : InGuild s m2 G)
    (hn : ' ' ∉ n) (hres : isReserved n = false)
    (hstatic : b.commands.find? (fun c => c.Name = n) = none)
    (hunlearn : b.commands.find? (fun c => c.Name = "unlearn".toList) = some unlearn)
    (hact : unlearn.a = unlearnAction)
    (hremove : (b.db.Remove w.db G n).1 = none)
    (hgone : b.db.Get (b.db.Remove w.db G n).2 G n = .error .ErrItemNotFound)
    (hc1 : m1.Content = b.Prefix ++ ("unlearn".toList ++ " ".toList ++ n))
    (hc2 : m2.Content = b.Prefix ++ n) :
    ∃ w1 w2, b.commandHandler s m1 w = .ok w1 ∧ b.commandHandler s m2 w1 = .ok w2 ∧
      w1.replies = w.replies ++ ["Unlearned ".toList ++ n ++ " successfully".toList] ∧
      (b.Command n w1).1 = .error (.other "command not found".toList) ∧
      (b.dbCommand s m2 n (w1.emit (.command n))).1 = .error .ErrItemNotFound ∧
      w2 = (b.dbCommand s m2 n (w1.emit (.command n))).2.log
        ⟨.debug, handlerFields, "Command not found: %s".toList, .str n⟩ ∧
      w2.replies = w1.replies ∧ w2.db = w1.db := by
  have htokens : Split ("unlearn".toList ++ " ".toList ++ n) ' ' = ["unlearn".toList, n] := by
    have h : "unlearn".toList ++ " ".toList ++ n = "unlearn".toList ++ ' ' :: n := by
      simp [String.toList]
    rw [h, Split_append_sep _ _ ' ' (by decide), Split_of_not_mem n ' ' hn]
  have hrun1 := commandHandler_static b s m1 w _ "unlearn".toList [n] unlearn hauthor1 hc1
    htokens hunlearn
  obtain ⟨w1, hw1, hdb1, htr1⟩ := unlearnAction_removes (b.NewContext m1 s) n []
    (w.emit (.command "unlearn".toList)) ⟨G⟩ hres (hG1.1 _) hremove
  simp only [NewContext_db, emit_db] at hdb1
  have hrun2 := commandHandler_miss b s m2 w1 n n [] hauthor2 hc2
    (Split_of_not_mem n ' ' hn) hstatic
  obtain ⟨hres2, hdb2, hrep2⟩ := bot_dbCommand_inGuild b s m2 n G (w1.emit (.command n)) hG2
  simp only [emit_db, hdb1, hgone] at hres2
  rw [hres2] at hrun2
  simp only at hrun2
  refine ⟨w1, _, ?_, hrun2, ?_, ?_, hres2, rfl, ?_, ?_⟩
  · rw [hrun1, defaultCommand.Run, hact]; exact hw1
  · rw [replies_of_trace (w.emit (.command "unlearn".toList)) w1 _ htr1, replies_emit]
    simp [Event.reply?]
  · simp [bot.Command, hstatic]
  · rw [replies_log, hrep2, replies_emit]
    simp [Event.reply?]
  · rw [log_db, hdb2]; rfl

/-- Witness for C5: the scenario of the spec, `!unlearn greet` and then
`!greet`, on the test bot with `greet` learned. -/
theorem unlearn_then_invoke_witness :
    ∃ w1 w2, testBot.commandHandler testSession (userMessage "!unlearn greet")
          (freshWorld [greetHi]) = .ok w1 ∧
      testBot.commandHandler testSession (userMessage "!greet") w1 = .ok w2 ∧
      w1.replies = (freshWorld [greetHi]).replies ++
        ["Unlearned ".toList ++ "greet".toList ++ " successfully".toList] ∧
      (testBot.Command "greet".toList w1).1 = .error (.other "command not found".toList) ∧
      (testBot.dbCommand testSession (userMessage "!greet") "greet".toList
        (w1.emit (.command "greet".toList))).1 = .error .ErrItemNotFound ∧
      w2 = (testBot.dbCommand testSession (userMessage "!greet") "greet".toList
          (w1.emit (.command "greet".toList))).2.log
        ⟨.debug, handlerFields, "Command not found: %s".toList, .str "greet".toList⟩ ∧
      w2.replies = w1.replies ∧ w2.db = w1.db :=
  unlearn_then_invoke testBot testSession (userMessage "!unlearn greet")
    (userMessage "!greet") (freshWorld [greetHi]) "G1".toList "greet".toList
    (NewCommand "unlearn".toList "Unlearn a message-response command".toList unlearnAction)
    (by decide) (by decide)
    ⟨fun _ => rfl, fun _ => Or.inl ⟨_, rfl, rfl⟩⟩ ⟨fun _ => rfl, fun _ => Or.inl ⟨_, rfl, rfl⟩⟩
    (by decide) (by decide) (by rfl) (by rfl) rfl rfl rfl (by decide) (by decide)

/-! ## The switch -/

theorem isReserved_false (n : Str)
    (h : n ≠ "learn".toList ∧ n ≠ "unlearn".toList ∧ n ≠ "help".toList ∧ n ≠ "info".toList) :
    isReserved n = false := by
  obtain ⟨h1, h2, h3, h4⟩ := h
  simp only [isReserved, Bool.or_eq_false_iff, decide_eq_false_iff_not]
  exact ⟨⟨⟨h1, h2⟩, h3⟩, h4⟩

/-! ## C6: learning a name that is already learned -/

/-- C6: for every context, world and argument list whose first token `n` is
none of learn, unlearn, help, info, when the guild resolves to `g` and the
store returns an item for `(g, n)`, the learn action ends normally, leaves the
store exactly as it was and makes exactly three calls: the guild resolution,
the store read and the one reply `haha, no`.  `New` is not called, whatever
the remaining arguments are. -/
theorem learn_existing_name_rejected {σ : Type} (c : Context σ) (n : Str) (rest : List Str)
    (w : World σ) (g : Guild) (i : Item)
    (hres : n ≠ "learn".toList ∧ n ≠ "unlearn".toList ∧ n ≠ "help".toList ∧ n ≠ "info".toList)
    (hguild : c.s.Guild w.trace c.m = .ok g)
    (hget : c.db.Get w.db g.ID n = .ok i) :
    ∃ w', learnAction c (n :: rest) w = .ok w' ∧ w'.db = w.db ∧
      w'.trace = w.trace ++
        [.guild c.m.ChannelID, .dbGet g.ID n, .send c.m.ChannelID "haha, no".toList] ∧
      w'.replies = w.replies ++ ["haha, no".toList] ∧
      c.db.Get w'.db g.ID n = .ok i := by
  have hres' : isReserved n = false := isReserved_false n hres
  simp only [learnAction, index, List.getElem?_cons_zero, hres', Bool.false_eq_true, if_false,
    Guild_fst, hguild, DatabaseGet_fst, Guild_snd, emit_db, hget]
  split
  · refine ⟨_, rfl, by simp, by simp, ?_, by simpa using hget⟩
    simp [replies_emit, Event.reply?]
  · refine ⟨_, rfl, by simp, by simp, ?_, by simpa using hget⟩
    simp [replies_emit, Event.reply?]

/-- Witness for C6: `learn greet Bye now` with `greet -> hi` already learned
in `G1`. -/
theorem learn_existing_name_rejected_witness :
    ∃ w', learnAction (testContext "!learn greet Bye now")
          ("greet".toList :: ["Bye".toList, "now".toList]) (freshWorld [greetHi]) = .ok w' ∧
      w'.db = (freshWorld [greetHi]).db ∧
      w'.trace = (freshWorld [greetHi]).trace ++
        [.guild (testContext "!learn greet Bye now").m.ChannelID,
          .dbGet (Guild.mk "G1".toList).ID "greet".toList,
          .send (testContext "!learn greet Bye now").m.ChannelID "haha, no".toList] ∧
      w'.replies = (freshWorld [greetHi]).replies ++ ["haha, no".toList] ∧
      (testContext "!learn greet Bye now").db.Get w'.db (Guild.mk "G1".toList).ID
        "greet".toList = .ok greetHi :=
  learn_existing_name_rejected (testContext "!learn greet Bye now") "greet".toList
    ["Bye".toList, "now".toList] (freshWorld [greetHi]) ⟨"G1".toList⟩ greetHi
    (by decide) rfl rfl

/-! ## C7: the names of the switch -/

/-- C7: for the learn and for the unlearn action, every context, world and
argument list whose first token is exactly `learn`, `unlearn`, `help` or
`info`: the action ends normally, its only call is the one reply
`Very funny...` (no guild resolution, no store `Get`, `New` or `Remove`) and
the store is left as it was. -/
theorem switch_name_rejected {σ : Type} (c : Context σ) (n : Str) (rest : List Str)
    (w : World σ)
    (hn : n = "learn".toList ∨ n = "unlearn".toList ∨ n = "help".toList ∨ n = "info".toList) :
    (∃ w', learnAction c (n :: rest) w = .ok w' ∧ w'.db = w.db ∧
      w'.trace = w.trace ++ [.send c.m.ChannelID "Very funny...".toList]) ∧
    (∃ w', unlearnAction c (n :: rest) w = .ok w' ∧ w'.db = w.db ∧
      w'.trace = w.trace ++ [.send c.m.ChannelID "Very funny...".toList]) := by
  have hres : isReserved n = true := by
    rcases hn with rfl | rfl | rfl | rfl <;> decide
  constructor
  · simp only [learnAction, index, List.getElem?_cons_zero, hres, if_true]
    split
    · exact ⟨_, rfl, by simp, by simp⟩
    · exact ⟨_, rfl, by simp, by simp⟩
  · simp only [unlearnAction, index, List.getElem?_cons_zero, hres, if_true]
    split
    · exact ⟨_, rfl, by simp, by simp⟩
    · exact ⟨_, rfl, by simp, by simp⟩

/-- Witness for C7: the arguments of `!learn help anything`, given to both
actions. -/
theorem switch_name_rejected_witness :
    (∃ w', learnAction (testContext "!learn help anything")
          ("help".toList :: ["anything".toList]) (freshWorld [greetHi]) = .ok w' ∧
      w'.db = (freshWorld [greetHi]).db ∧
      w'.trace = (freshWorld [greetHi]).trace ++
        [.send (testContext "!learn help anything").m.ChannelID "Very funny...".toList]) ∧
    (∃ w', unlearnAction (testContext "!learn help anything")
          ("help".toList :: ["anything".toList]) (freshWorld [greetHi]) = .ok w' ∧
      w'.db = (freshWorld [greetHi]).db ∧
      w'.trace = (freshWorld [greetHi]).trace ++
        [.send (testContext "!learn help anything").m.ChannelID "Very funny...".toList]) :=
  switch_name_rejected (testContext "!learn help anything") "help".toList
    ["anything".toList] (freshWorld [greetHi]) (Or.inr (Or.inr (Or.inl rfl)))

/-! ## C8: learning a new name -/

/-- C8: for every context, world and non-empty argument list whose first token
`n` is none of learn, unlearn, help, info, when the guild resolves to `g`, the
store reports `(g, n)` as not found and `New` succeeds: the learn action ends
normally, the store it leaves is the one `New` makes of the store before for
the item with guildID `g`, message `n` and response join(args[1:], " "), and
its calls are, in order, the guild resolution, the store read, that one `New`
and the one reply `Learned <n> successfully`.  In a keyed store the new item
is then what `Get` answers for `(g, n)` and every other key is answered as
before. -/
theorem learn_new_name_stored {σ : Type} (c : Context σ) (n : Str) (rest : List Str)
    (w : World σ) (g : Guild)
    (hres : n ≠ "learn".toList ∧ n ≠ "unlearn".toList ∧ n ≠ "help".toList ∧ n ≠ "info".toList)
    (hguild : c.s.Guild w.trace c.m = .ok g)
    (hget : c.db.Get w.db g.ID n = .error .ErrItemNotFound)
    (hnew : (c.db.New w.db ⟨n, Join rest " ".toList, g.ID⟩).1 = none) :
    ∃ w', learnAction c (n :: rest) w = .ok w' ∧
      w'.db = (c.db.New w.db ⟨n, Join rest " ".toList, g.ID⟩).2 ∧
      w'.trace = w.trace ++ [.guild c.m.ChannelID, .dbGet g.ID n,
        .dbNew ⟨n, Join rest " ".toList, g.ID⟩,
        .send c.m.ChannelID ("Learned ".toList ++ n ++ " successfully".toList)] ∧
      w'.replies = w.replies ++ ["Learned ".toList ++ n ++ " successfully".toList] ∧
      (c.db.Keyed →
        c.db.Get w'.db g.ID n = .ok ⟨n, Join rest " ".toList, g.ID⟩ ∧
        ∀ g' k, ¬ (g' = g.ID ∧ k = n) → c.db.Get w'.db g' k = c.db.Get w.db g' k) := by
  have hres' : isReserved n = false := isReserved_false n hres
  obtain ⟨w', hw', hdb, htr⟩ := learnAction_stores c n rest w g hres' hguild hget hnew
  refine ⟨w', hw', hdb, htr, ?_, fun hkeyed => ⟨?_, ?_⟩⟩
  · rw [replies_of_trace w w' _ htr]
    simp [Event.reply?]
  · rw [hdb]; exact hkeyed.new_get w.db ⟨n, Join rest " ".toList, g.ID⟩ hnew
  · intro g' k hk
    rw [hdb]; exact hkeyed.new_frame w.db ⟨n, Join rest " ".toList, g.ID⟩ g' k hk

/-- Witness for C8: the scenario of the spec, the arguments of
`!learn greet Hello there` in guild `G1` with an empty store. -/
theorem learn_new_name_stored_witness :
    learnAction (testContext "!learn greet Hello there")
        ["greet".toList, "Hello".toList, "there".toList] (freshWorld []) =
      .ok { db := [⟨"greet".toList, "Hello there".toList, "G1".toList⟩]
            trace := [.guild "c1".toList, .dbGet "G1".toList "greet".toList,
              .dbNew ⟨"greet".toList, "Hello there".toList, "G1".toList⟩,
              .send "c1".toList "Learned greet successfully".toList]
            logs := [] } ∧
    ∃ w', learnAction (testContext "!learn greet Hello there")
          ("greet".toList :: ["Hello".toList, "there".toList]) (freshWorld []) = .ok w' ∧
      w'.db = ((testContext "!learn greet Hello there").db.New (freshWorld []).db
        ⟨"greet".toList, Join ["Hello".toList, "there".toList] " ".toList,
          (Guild.mk "G1".toList).ID⟩).2 ∧
      w'.trace = (freshWorld ([] : List Item)).trace ++
        [.guild (testContext "!learn greet Hello there").m.ChannelID,
          .dbGet (Guild.mk "G1".toList).ID "greet".toList,
          .dbNew ⟨"greet".toList, Join ["Hello".toList, "there".toList] " ".toList,
            (Guild.mk "G1".toList).ID⟩,
          .send (testContext "!learn greet Hello there").m.ChannelID
            ("Learned ".toList ++ "greet".toList ++ " successfully".toList)] ∧
      w'.replies = (freshWorld ([] : List Item)).replies ++
        ["Learned ".toList ++ "greet".toList ++ " successfully".toList] ∧
      ((testContext "!learn greet Hello there").db.Keyed →
        (testContext "!learn greet Hello there").db.Get w'.db (Guild.mk "G1".toList).ID
            "greet".toList =
          .ok ⟨"greet".toList, Join ["Hello".toList, "there".toList] " ".toList,
            (Guild.mk "G1".toList).ID⟩ ∧
        ∀ g' k, ¬ (g' = (Guild.mk "G1".toList).ID ∧ k = "greet".toList) →
          (testContext "!learn greet Hello there").db.Get w'.db g' k =
            (testContext "!learn greet Hello there").db.Get (freshWorld []).db g' k) :=
  ⟨rfl, learn_new_name_stored (testContext "!learn greet Hello there") "greet".toList
    ["Hello".toList, "there".toList] (freshWorld []) ⟨"G1".toList⟩ (by decide) rfl rfl rfl⟩

/-! ## C9: tokenization -/

/-- C9: for every message of another author whose text is the prefix followed
by `rest`, the dispatcher works on the tokens `Split rest ' '`, which are the
pieces of `rest` between single spaces: there is one token more than there are
spaces in `rest`, no token contains a space, joining the tokens with single
spaces gives `rest` back (so nothing is trimmed or collapsed and empty tokens
stay), and the first token is the text before the first space.  The name the
registry, and on a miss the resolver, is asked for is that first token, and
the command that resolves is run on the remaining tokens, in order. -/
theorem dispatcher_tokenizes {σ : Type} (b : bot σ) (s : Session) (m : MessageCreate)
    (w : World σ) (rest : Str)
    (hauthor : m.AuthorID ≠ s.UserID) (hcontent : m.Content = b.Prefix ++ rest) :
    (Split rest ' ').length = rest.count ' ' + 1 ∧
    (∀ t ∈ Split rest ' ', ' ' ∉ t) ∧
    Join (Split rest ' ') " ".toList = rest ∧
    (Split rest ' ').head? = some (rest.takeWhile fun c => c ≠ ' ') ∧
    (∀ c, (b.Command (rest.takeWhile fun c => c ≠ ' ') w).1 = .ok c →
      b.commandHandler s m w =
        c.Run (b.NewContext m s) ((Split rest ' ').drop 1)
          (w.emit (.command (rest.takeWhile fun c => c ≠ ' ')))) ∧
    (∀ e c, (b.Command (rest.takeWhile fun c => c ≠ ' ') w).1 = .error e →
      (b.dbCommand s m (rest.takeWhile fun c => c ≠ ' ')
        (w.emit (.command (rest.takeWhile fun c => c ≠ ' ')))).1 = .ok c →
      b.commandHandler s m w =
        c.Run (b.NewContext m s) ((Split rest ' ').drop 1)
          (b.dbCommand s m (rest.takeWhile fun c => c ≠ ' ')
            (w.emit (.command (rest.takeWhile fun c => c ≠ ' ')))).2) := by
  have hrun := commandHandler_tokens b s m w rest _ _ hauthor hcontent (tokens_cons rest)
  refine ⟨Split_length rest ' ', Split_no_sep rest ' ', Join_Split rest ' ',
    Split_head rest ' ', ?_, ?_⟩
  · intro c hc
    rw [hrun, hc, List.drop_one]
  · intro e c he hc
    rw [hrun, he]
    simp only
    rw [hc, List.drop_one]

/-- Witness for C9: `!foo   bar` has the tokens `foo`, two empty ones and
`bar`; the static command `foo` is run on the arguments after the first. -/
theorem dispatcher_tokenizes_witness :
    Split "foo   bar".toList ' ' = ["foo".toList, [], [], "bar".toList] ∧
    (Split "foo   bar".toList ' ').drop 1 = [[], [], "bar".toList] ∧
    ((Split "foo   bar".toList ' ').length = "foo   bar".toList.count ' ' + 1 ∧
    (∀ t ∈ Split "foo   bar".toList ' ', ' ' ∉ t) ∧
    Join (Split "foo   bar".toList ' ') " ".toList = "foo   bar".toList ∧
    (Split "foo   bar".toList ' ').head? = some ("foo   bar".toList.takeWhile fun c => c ≠ ' ') ∧
    (∀ c, (fooBot.Command ("foo   bar".toList.takeWhile fun c => c ≠ ' ')
        (freshWorld [])).1 = .ok c →
      fooBot.commandHandler testSession (userMessage "!foo   bar") (freshWorld []) =
        c.Run (fooBot.NewContext (userMessage "!foo   bar") testSession)
          ((Split "foo   bar".toList ' ').drop 1)
          ((freshWorld []).emit (.command ("foo   bar".toList.takeWhile fun c => c ≠ ' ')))) ∧
    (∀ e c, (fooBot.Command ("foo   bar".toList.takeWhile fun c => c ≠ ' ')
        (freshWorld [])).1 = .error e →
      (fooBot.dbCommand testSession (userMessage "!foo   bar")
        ("foo   bar".toList.takeWhile fun c => c ≠ ' ')
        ((freshWorld []).emit
          (.command ("foo   bar".toList.takeWhile fun c => c ≠ ' ')))).1 = .ok c →
      fooBot.commandHandler testSession (userMessage "!foo   bar") (freshWorld []) =
        c.Run (fooBot.NewContext (userMessage "!foo   bar") testSession)
          ((Split "foo   bar".toList ' ').drop 1)
          (fooBot.dbCommand testSession (userMessage "!foo   bar")
            ("foo   bar".toList.takeWhile fun c => c ≠ ' ')
            ((freshWorld []).emit
              (.command ("foo   bar".toList.takeWhile fun c => c ≠ ' ')))).2)) ∧
    ((fooBot.commandHandler testSession (userMessage "!foo   bar")
        (freshWorld [])).toOption.map fun w => w.replies) = some ["bar".toList] :=
  ⟨by decide, by decide,
    dispatcher_tokenizes fooBot testSession (userMessage "!foo   bar") (freshWorld [])
      "foo   bar".toList (by decide) (by decide),
    by decide⟩

/-! ## C10: messages without the prefix -/

/-- C10: for every prefix, registry, store, world and message whose text does
not start with the prefix, the handler returns the world it was given: no
registry lookup, no channel or store lookup, no action, no reply, no log line,
and the store is left as it was. -/
theorem no_prefix_no_effect {σ : Type} (b : bot σ) (s : Session) (m : MessageCreate)
    (w : World σ) (hstart : ¬ ∃ rest, m.Content = b.Prefix ++ rest) :
    b.commandHandler s m w = .ok w := by
  have h : HasPrefix m.Content b.Prefix = false := by
    cases hp : HasPrefix m.Content b.Prefix
    · rfl
    · exact absurd ((HasPrefix_iff _ _).mp hp) hstart
  simp [bot.commandHandler, h]

/-- Witness for C10: `ping` without the prefix `!`, and `?ping` with another
one, leave the world with `ping` learned untouched, while `!ping` is answered. -/
theorem no_prefix_no_effect_witness :
    testBot.commandHandler testSession (userMessage "ping") (freshWorld pingLearned) =
        .ok (freshWorld pingLearned) ∧
      testBot.commandHandler testSession (userMessage "?ping") (freshWorld pingLearned) =
        .ok (freshWorld pingLearned) ∧
      ((testBot.commandHandler testSession (userMessage "!ping")
          (freshWorld pingLearned)).toOption.map fun w => w.replies) = some ["pong".toList] :=
  ⟨no_prefix_no_effect testBot testSession (userMessage "ping") (freshWorld pingLearned)
      (by rintro ⟨rest, h⟩; revert h; simp [userMessage, testBot]),
    rfl, by decide⟩

/-! ## C11: messages of the bot itself -/

/-- C11: for every prefix, registry, store, world and message whose author is
the bot's own identity, whatever its text, the handler returns the world it
was given: no lookup, no action, no reply, no log line, store unchanged. -/
theorem own_message_no_effect {σ : Type} (b : bot σ) (s : Session) (m : MessageCreate)
    (w : World σ) (hself : m.AuthorID = s.UserID) :
    b.commandHandler s m w = .ok w := by
  simp [bot.commandHandler, hself]

/-- Witness for C11: the bot's own `!ping` and its own `!greet`, with `greet`
learned, change nothing; the same `!ping` of a user is answered. -/
theorem own_message_no_effect_witness :
    testBot.commandHandler testSession (botMessage "!ping") (freshWorld [greetHi]) =
        .ok (freshWorld [greetHi]) ∧
      testBot.commandHandler testSession (botMessage "!greet") (freshWorld [greetHi]) =
        .ok (freshWorld [greetHi]) ∧
      ((testBot.commandHandler testSession (userMessage "!ping")
          (freshWorld [greetHi])).toOption.map fun w => w.replies) = some ["pong".toList] :=
  ⟨own_message_no_effect testBot testSession (botMessage "!ping") (freshWorld [greetHi]) rfl,
    rfl, by decide⟩

/-! ## The learned-command resolver, case by case -/

/-- What the resolver returns and the world it leaves, in terms of the channel
it resolves and of the store's answer. -/
theorem bot_dbCommand_cases {σ : Type} (b : bot σ) (s : Session) (m : MessageCreate)
    (msg : Str) (w : World σ) :
    (b.dbCommand s m msg w).1 =
        (match s.resolveChannel w.trace m.ChannelID with
          | .error e => .error e
          | .ok ch =>
            match b.db.Get w.db ch.GuildID msg with
            | .ok i => .ok (dbCommand i)
            | .error e => .error e) ∧
      (b.dbCommand s m msg w).2.db = w.db ∧
      (b.dbCommand s m msg w).2.replies = w.replies ∧
      (b.dbCommand s m msg w).2.logs = w.logs := by
  simp only [bot.dbCommand, Session.resolveChannel]
  cases hst : s.StateChannel w.trace m.ChannelID with
  | ok ch =>
    simp only [emit_db]
    cases hget : b.db.Get w.db ch.GuildID msg with
    | ok i => simp [replies_emit, Event.reply?]
    | error e => cases e <;> simp [replies_emit, Event.reply?]
  | error e0 =>
    simp only [emit_trace]
    cases hch : s.Channel (w.trace ++ [.stateChannel m.ChannelID]) m.ChannelID with
    | error e1 => simp [replies_emit, Event.reply?]
    | ok ch =>
      simp only [emit_db]
      cases hget : b.db.Get w.db ch.GuildID msg with
      | ok i => simp [replies_emit, Event.reply?]
      | error e => cases e <;> simp [replies_emit, Event.reply?]

/-! ## C12: resolution of a name the registry does not hold -/

/-- C12: for every message of another author that starts with the prefix and
whose first token `name` the registry does not hold, with `w0` the world after
the registry lookup.  If the channel resolves and the store returns an item
for (the channel's guild, `name`), the handler runs the ephemeral command of
that item on the remaining tokens: one reply, the item's response, and the
store is not written.  In every other case (the store reports not-found, or the
channel resolution or the store fails) the handler ends in the world the
resolver left plus one log line, at debug level exactly when the resolver
returned the not-found sentinel: no action is run, no reply is sent, the store
is unchanged.  With the channel resolved the resolver returns not-found
exactly when the store reported it, and returns any error of the store
unchanged; a failed channel resolution is returned unchanged as well. -/
theorem learned_command_resolution {σ : Type} (b : bot σ) (s : Session) (m : MessageCreate)
    (w : World σ) (rest name : Str) (args : List Str)
    (hauthor : m.AuthorID ≠ s.UserID) (hcontent : m.Content = b.Prefix ++ rest)
    (htokens : Split rest ' ' = name :: args)
    (hmiss : b.commands.find? (fun c => c.Name = name) = none) :
    (∀ ch i, s.resolveChannel (w.emit (.command name)).trace m.ChannelID = .ok ch →
      b.db.Get w.db ch.GuildID name = .ok i →
      b.commandHandler s m w =
          (dbCommand i).Run (b.NewContext m s) args
            (b.dbCommand s m name (w.emit (.command name))).2 ∧
        ∃ w', b.commandHandler s m w = .ok w' ∧ w'.replies = w.replies ++ [i.Response] ∧
          w'.db = w.db) ∧
    ((∀ ch i, s.resolveChannel (w.emit (.command name)).trace m.ChannelID = .ok ch →
        b.db.Get w.db ch.GuildID name ≠ .ok i) →
      ∃ l, b.commandHandler s m w =
          .ok ((b.dbCommand s m name (w.emit (.command name))).2.log l) ∧
        (l.level = .debug ↔
          (b.dbCommand s m name (w.emit (.command name))).1 = .error .ErrItemNotFound) ∧
        ((b.dbCommand s m name (w.emit (.command name))).2.log l).replies = w.replies ∧
        ((b.dbCommand s m name (w.emit (.command name))).2.log l).db = w.db) ∧
    (∀ ch, s.resolveChannel (w.emit (.command name)).trace m.ChannelID = .ok ch →
      ((b.dbCommand s m name (w.emit (.command name))).1 = .error .ErrItemNotFound ↔
        b.db.Get w.db ch.GuildID name = .error .ErrItemNotFound) ∧
      ∀ e, b.db.Get w.db ch.GuildID name = .error e →
        (b.dbCommand s m name (w.emit (.command name))).1 = .error e) ∧
    (∀ e, s.resolveChannel (w.emit (.command name)).trace m.ChannelID = .error e →
      (b.dbCommand s m name (w.emit (.command name))).1 = .error e) := by
  have hrun := commandHandler_miss b s m w rest name args hauthor hcontent htokens hmiss
  obtain ⟨hres, hdb, hrep, _⟩ := bot_dbCommand_cases b s m name (w.emit (.command name))
  simp only [emit_db] at hres hdb
  have hrep0 : (w.emit (.command name)).replies = w.replies := by
    simp [replies_emit, Event.reply?]
  rw [hrep0] at hrep
  refine ⟨?_, ?_, ?_, ?_⟩
  · intro ch i hch hget
    rw [hch] at hres
    simp only [hget] at hres
    have hrun' : b.commandHandler s m w =
        (dbCommand i).Run (b.NewContext m s) args
          (b.dbCommand s m name (w.emit (.command name))).2 := by
      rw [hrun, hres]
    refine ⟨hrun', ?_⟩
    obtain ⟨w', hw', hdb', htr'⟩ := dbCommand_run i (b.NewContext m s) args
      (b.dbCommand s m name (w.emit (.command name))).2
    refine ⟨w', by rw [hrun', hw'], ?_, by rw [hdb', hdb]⟩
    rw [replies_of_trace _ w' _ htr', hrep]
    simp [Event.reply?]
  · intro hnot
    cases hr : (b.dbCommand s m name (w.emit (.command name))).1 with
    | ok c =>
      exfalso
      rw [hr] at hres
      cases hch : s.resolveChannel (w.emit (.command name)).trace m.ChannelID with
      | error e => rw [hch] at hres; simp at hres
      | ok ch =>
        rw [hch] at hres
        cases hget : b.db.Get w.db ch.GuildID name with
        | ok i => exact hnot ch i hch hget
        | error e => simp [hget] at hres
    | error e =>
      rw [hr] at hrun
      cases e with
      | ErrItemNotFound =>
        exact ⟨_, hrun, by simp, by rw [replies_log, hrep], by rw [log_db, hdb]⟩
      | other t =>
        exact ⟨_, hrun, by simp, by rw [replies_log, hrep], by rw [log_db, hdb]⟩
  · intro ch hch
    rw [hch] at hres
    refine ⟨?_, ?_⟩
    · cases hget : b.db.Get w.db ch.GuildID name with
      | ok i => simp [hres, hget]
      | error e => simp [hres, hget]
    · intro e hget
      simp [hres, hget]
  · intro e hch
    rw [hch] at hres
    exact hres

/-- Witness for C12: on the test bot with `greet` learned, `!greet a` runs the
ephemeral command and is answered `hi`; `!nope` ends with a debug line; with
a failing store or an unreachable gateway `!greet` ends with an error line;
in these three cases nothing is sent and the store is as before. -/
theorem learned_command_resolution_witness :
    (testBot.commandHandler testSession (userMessage "!greet a") (freshWorld [greetHi]) =
        (dbCommand greetHi).Run (testBot.NewContext (userMessage "!greet a") testSession)
          ["a".toList]
          (testBot.dbCommand testSession (userMessage "!greet a") "greet".toList
            ((freshWorld [greetHi]).emit (.command "greet".toList))).2 ∧
      ∃ w', testBot.commandHandler testSession (userMessage "!greet a")
            (freshWorld [greetHi]) = .ok w' ∧
        w'.replies = (freshWorld [greetHi]).replies ++ [greetHi.Response] ∧
        w'.db = (freshWorld [greetHi]).db) ∧
    ((testBot.commandHandler testSession (userMessage "!nope") (freshWorld [greetHi])).toOption.map
        fun w => (w.db, w.replies, w.logs.map fun l => l.level)) =
      some ([greetHi], [], [.debug]) ∧
    ((brokenBot.commandHandler testSession (userMessage "!greet")
        (freshWorld [greetHi])).toOption.map
        fun w => (w.db, w.replies, w.logs.map fun l => (l.level, l.arg))) =
      some ([greetHi], [], [(.error, .err (.other "connection refused".toList))]) ∧
    ((testBot.commandHandler offlineSession (userMessage "!greet")
        (freshWorld [greetHi])).toOption.map
        fun w => (w.db, w.replies, w.logs.map fun l => (l.level, l.arg))) =
      some ([greetHi], [], [(.error, .err (.other "HTTP 500".toList))]) :=
  ⟨(learned_command_resolution testBot testSession (userMessage "!greet a")
      (freshWorld [greetHi]) "greet a".toList "greet".toList ["a".toList]
      (by decide) (by decide) (by decide) (by rfl)).1
      ⟨"c1".toList, "G1".toList⟩ greetHi rfl rfl,
    by decide, by decide, by decide⟩

/-! ## C13: what unlearn replies -/

/-- C13, as stated, fails for a store whose `Remove` returns an error.  On the
broken store, whose calls fail with `connection refused`, `unlearn greet`
resolves the guild, calls `Remove`, logs the error and sends no reply.  On the
strict store, which reports the removal of a missing key as not found,
`unlearn greet` is confirmed when `greet` is stored and gets no reply when it
was never learned. -/
theorem unlearn_unknown_name_not_confirmed :
    ((unlearnAction (brokenBot.NewContext (userMessage "!unlearn greet") testSession)
        ["greet".toList] (freshWorld [greetHi])).toOption.map
        fun w => (w.db, w.replies, w.trace)) =
      some ([greetHi], [], [.guild "c1".toList, .dbRemove "G1".toList "greet".toList]) ∧
    ((brokenBot.dispatchAll testSession [userMessage "!unlearn greet"]
        (freshWorld [greetHi])).toOption.map fun w => w.replies) = some [] ∧
    ((unlearnAction (strictBot.NewContext (userMessage "!unlearn greet") testSession)
        ["greet".toList] (freshWorld [greetHi])).toOption.map
        fun w => (w.db, w.replies)) = some ([], ["Unlearned greet successfully".toList]) ∧
    ((unlearnAction (strictBot.NewContext (userMessage "!unlearn greet") testSession)
        ["greet".toList] (freshWorld [])).toOption.map
        fun w => (w.db, w.replies, w.trace)) =
      some ([], [], [.guild "c1".toList, .dbRemove "G1".toList "greet".toList]) := by
  decide

/-- C13 (amended): for every context, world and argument list whose first token
`n` is none of learn, unlearn, help, info, when the guild resolves to `g` and
the store's `Remove(g, n)` returns no error, whether or not an item `(g, n)`
exists: the unlearn action ends normally, never reads the store, calls `Remove`
once and sends exactly the one reply `Unlearned <n> successfully`, so the reply
is the same for a deleted item and for a name that was never learned. -/
theorem unlearn_confirms {σ : Type} (c : Context σ) (n : Str) (rest : List Str)
    (w : World σ) (g : Guild)
    (hres : n ≠ "learn".toList ∧ n ≠ "unlearn".toList ∧ n ≠ "help".toList ∧ n ≠ "info".toList)
    (hguild : c.s.Guild w.trace c.m = .ok g)
    (hremove : (c.db.Remove w.db g.ID n).1 = none) :
    ∃ w', unlearnAction c (n :: rest) w = .ok w' ∧
      w'.db = (c.db.Remove w.db g.ID n).2 ∧
      w'.trace = w.trace ++ [.guild c.m.ChannelID, .dbRemove g.ID n,
        .send c.m.ChannelID ("Unlearned ".toList ++ n ++ " successfully".toList)] ∧
      w'.replies = w.replies ++ ["Unlearned ".toList ++ n ++ " successfully".toList] := by
  obtain ⟨w', hw', hdb, htr⟩ :=
    unlearnAction_removes c n rest w g (isReserved_false n hres) hguild hremove
  refine ⟨w', hw', hdb, htr, ?_⟩
  rw [replies_of_trace w w' _ htr]
  simp [Event.reply?]

/-- Witness for C13: on the in-memory store, whose `Remove` never fails,
`unlearn greet` is confirmed for `greet` never learned, and evaluates to the
same reply with `greet` stored. -/
theorem unlearn_confirms_witness :
    (∃ w', unlearnAction (testContext "!unlearn greet") ("greet".toList :: []) (freshWorld [])
          = .ok w' ∧
      w'.db = ((testContext "!unlearn greet").db.Remove (freshWorld []).db
        (Guild.mk "G1".toList).ID "greet".toList).2 ∧
      w'.trace = (freshWorld ([] : List Item)).trace ++
        [.guild (testContext "!unlearn greet").m.ChannelID,
          .dbRemove (Guild.mk "G1".toList).ID "greet".toList,
          .send (testContext "!unlearn greet").m.ChannelID
            ("Unlearned ".toList ++ "greet".toList ++ " successfully".toList)] ∧
      w'.replies = (freshWorld ([] : List Item)).replies ++
        ["Unlearned ".toList ++ "greet".toList ++ " successfully".toList]) ∧
    ((unlearnAction (testContext "!unlearn greet") ["greet".toList]
        (freshWorld [greetHi])).toOption.map fun w => (w.db, w.replies)) =
      some ([], ["Unlearned greet successfully".toList]) ∧
    ((unlearnAction (testContext "!unlearn greet") ["greet".toList]
        (freshWorld [])).toOption.map fun w => (w.db, w.replies)) =
      some ([], ["Unlearned greet successfully".toList]) :=
  ⟨unlearn_confirms (testContext "!unlearn greet") "greet".toList [] (freshWorld [])
      ⟨"G1".toList⟩ (by decide) rfl rfl,
    by decide, by decide⟩

/-! ## C14: learned commands are scoped by guild -/

/-- Dispatching an unregistered, space-free name in guild `G`: the replies
are decided by the store's answer for `(G, n)` and the store is not written. -/
theorem dispatch_learned_name {σ : Type} (b : bot σ) (s : Session) (m : MessageCreate)
    (w : World σ) (G n : Str)
    (hauthor : m.AuthorID ≠ s.UserID) (hG : InGuild s m G) (hn : ' ' ∉ n)
    (hstatic : b.commands.find? (fun c => c.Name = n) = none)
    (hc : m.Content = b.Prefix ++ n) :
    ∃ w', b.commandHandler s m w = .ok w' ∧ w'.db = w.db ∧
      w'.replies = w.replies ++ learnedReplies (b.db.Get w.db G n) := by
  have hrun := commandHandler_miss b s m w n n [] hauthor hc (Split_of_not_mem n ' ' hn) hstatic
  obtain ⟨hres, hdb, hrep⟩ := bot_dbCommand_inGuild b s m n G (w.emit (.command n)) hG
  have hrep0 : (w.emit (.command n)).replies = w.replies := by
    simp [replies_emit, Event.reply?]
  simp only [emit_db] at hres hdb
  rw [hrep0] at hrep
  cases hget : b.db.Get w.db G n with
  | ok i =>
    rw [hget] at hres
    simp only at hres
    rw [hres] at hrun
    simp only at hrun
    obtain ⟨w', hw', hdb', htr'⟩ := dbCommand_run i (b.NewContext m s) []
      (b.dbCommand s m n (w.emit (.command n))).2
    refine ⟨w', by rw [hrun, hw'], by rw [hdb', hdb], ?_⟩
    rw [replies_of_trace _ w' _ htr', hrep]
    simp [Event.reply?, learnedReplies]
  | error e =>
    rw [hget] at hres
    simp only at hres
    rw [hres] at hrun
    cases e with
    | ErrItemNotFound =>
      exact ⟨_, hrun, by rw [log_db, hdb], by simp [learnedReplies, hrep]⟩
    | other t =>
      exact ⟨_, hrun, by rw [log_db, hdb], by simp [learnedReplies, hrep]⟩

/-- The learn and unlearn actions run in guild `G1` leave what a keyed store
answers for the keys of any other guild as it was. -/
theorem learn_unlearn_other_guild {σ : Type} (c : Context σ) (args : List Str)
    (u u' : World σ) (G1 G2 : Str) (hkeyed : c.db.Keyed) (hne : G1 ≠ G2)
    (hguild : c.s.Guild u.trace c.m = .ok ⟨G1⟩)
    (hrun : learnAction c args u = .ok u' ∨ unlearnAction c args u = .ok u') :
    ∀ k, c.db.Get u'.db G2 k = c.db.Get u.db G2 k := by
  intro k
  rcases hrun with hrun | hrun
  · rcases learnAction_db c args u u' hrun with hdb | ⟨name, rest, g, _, _, hg, _, hdb⟩
    · rw [hdb]
    · rw [hguild] at hg
      cases hg
      rw [hdb, hkeyed.new_frame]
      rintro ⟨h1, _⟩
      exact hne h1.symm
  · rcases unlearnAction_db c args u u' hrun with hdb | ⟨name, rest, g, _, _, hg, hdb⟩
    · rw [hdb]
    · rw [hguild] at hg
      cases hg
      rw [hdb, hkeyed.remove_frame]
      rintro ⟨h1, _⟩
      exact hne h1.symm

/-- C14, as stated, fails for a name that contains a space.  The name `a b` is
not registered; the empty store and the store that holds `a -> hi` for guild
`G2` agree on the entry `(G2, a b)`, which neither holds; yet in guild `G2` the
message `!a b` gets no reply on the first and the reply `hi` on the second. -/
theorem outcome_depends_on_first_token :
    (testBot.commands.find? fun c => c.Name = "a b".toList).isNone = true ∧
    (memStore.Get [] "G2".toList "a b".toList).toOption = none ∧
    (memStore.Get [⟨"a".toList, "hi".toList, "G2".toList⟩] "G2".toList "a b".toList).toOption
      = none ∧
    ((testBot.commandHandler (guildSession "G2".toList) (userMessage "!a b")
        (freshWorld [])).toOption.map fun w => w.replies) = some [] ∧
    ((testBot.commandHandler (guildSession "G2".toList) (userMessage "!a b")
        (freshWorld [⟨"a".toList, "hi".toList, "G2".toList⟩])).toOption.map
        fun w => w.replies) = some ["hi".toList] := by
  decide

/-- C14 (amended): learned commands are scoped by guild.  For every guild `G2`,
every name `n` that contains no space and is not registered, and every message
of another author in `G2` whose text is the prefix followed by `n`: in any two
worlds whose stores agree on the entry `(G2, n)` the dispatch sends the same
replies (the stored response if the entry exists, nothing otherwise) and
writes neither store.  For a keyed store and every guild `G1` other than `G2`,
a learn or unlearn action run in `G1` leaves every entry of `G2` as it was, so
the dispatch in `G2` sends the same replies after it as before: learning `n`
in `G1` does not make `n` invocable in `G2`. -/
theorem learned_commands_guild_scoped {σ : Type} (b : bot σ) (s : Session)
    (m : MessageCreate) (G2 n : Str)
    (hauthor : m.AuthorID ≠ s.UserID) (hG : InGuild s m G2) (hn : ' ' ∉ n)
    (hstatic : b.commands.find? (fun c => c.Name = n) = none)
    (hc : m.Content = b.Prefix ++ n) :
    (∀ w v : World σ, b.db.Get w.db G2 n = b.db.Get v.db G2 n →
      ∃ w' v' rs, b.commandHandler s m w = .ok w' ∧ b.commandHandler s m v = .ok v' ∧
        w'.replies = w.replies ++ rs ∧ v'.replies = v.replies ++ rs ∧
        rs = learnedReplies (b.db.Get w.db G2 n) ∧ w'.db = w.db ∧ v'.db = v.db) ∧
    (b.db.Keyed → ∀ (c : Context σ) (args : List Str) (u u' : World σ) (G1 : Str),
      G1 ≠ G2 → c.db = b.db → c.s.Guild u.trace c.m = .ok ⟨G1⟩ →
      (learnAction c args u = .ok u' ∨ unlearnAction c args u = .ok u') →
      (∀ k, b.db.Get u'.db G2 k = b.db.Get u.db G2 k) ∧
      ∃ x y rs, b.commandHandler s m u = .ok x ∧ b.commandHandler s m u' = .ok y ∧
        x.replies = u.replies ++ rs ∧ y.replies = u'.replies ++ rs) := by
  constructor
  · intro w v hagree
    obtain ⟨w', hw', hdbw, hrw⟩ := dispatch_learned_name b s m w G2 n hauthor hG hn hstatic hc
    obtain ⟨v', hv', hdbv, hrv⟩ := dispatch_learned_name b s m v G2 n hauthor hG hn hstatic hc
    exact ⟨w', v', _, hw', hv', hrw, by rw [hrv, hagree], rfl, hdbw, hdbv⟩
  · intro hkeyed c args u u' G1 hne hcdb hguild hrun
    have hframe : ∀ k, b.db.Get u'.db G2 k = b.db.Get u.db G2 k := by
      have := learn_unlearn_other_guild c args u u' G1 G2 (hcdb ▸ hkeyed) hne hguild hrun
      simpa [hcdb] using this
    obtain ⟨x, hx, _, hrx⟩ := dispatch_learned_name b s m u G2 n hauthor hG hn hstatic hc
    obtain ⟨y, hy, _, hry⟩ := dispatch_learned_name b s m u' G2 n hauthor hG hn hstatic hc
    exact ⟨hframe, x, y, _, hx, hy, hrx, by rw [hry, hframe n]⟩

/-- Witness for C14: `greet` is learned in guild `G1`; in guild `G2` the
entries are as before and `!greet` gets the same replies (none) before and
after, while in `G1` it is answered `hi`. -/
theorem learned_commands_guild_scoped_witness :
    ((∀ k, testBot.db.Get greetLearnedWorld.db "G2".toList k =
        testBot.db.Get (freshWorld ([] : List Item)).db "G2".toList k) ∧
      ∃ x y rs, testBot.commandHandler (guildSession "G2".toList) (userMessage "!greet")
            (freshWorld []) = .ok x ∧
        testBot.commandHandler (guildSession "G2".toList) (userMessage "!greet")
            greetLearnedWorld = .ok y ∧
        x.replies = (freshWorld ([] : List Item)).replies ++ rs ∧
        y.replies = greetLearnedWorld.replies ++ rs) ∧
    ((testBot.commandHandler (guildSession "G2".toList) (userMessage "!greet")
        greetLearnedWorld).toOption.map fun w => w.replies) =
      some ["Learned greet successfully".toList] ∧
    ((testBot.commandHandler (guildSession "G1".toList) (userMessage "!greet")
        greetLearnedWorld).toOption.map fun w => w.replies) =
      some ["Learned greet successfully".toList, "hi".toList] :=
  ⟨(learned_commands_guild_scoped testBot (guildSession "G2".toList) (userMessage "!greet")
      "G2".toList "greet".toList (by decide)
      ⟨fun _ => rfl, fun _ => Or.inl ⟨_, rfl, rfl⟩⟩ (by decide) (by rfl) (by decide)).2
      memStore_keyed (testContext "!learn greet hi") ["greet".toList, "hi".toList]
      (freshWorld []) greetLearnedWorld "G1".toList (by decide) rfl rfl (Or.inl rfl),
    by decide, by decide⟩

/-! ## C15: learn aborts on an infrastructure failure -/

/-- C15: for every context, world and argument list whose first token `n` is
none of learn, unlearn, help, info: if the guild resolution fails, or if it
succeeds and the store's `Get` for (guild, `n`) fails with an error other than
not-found, the learn action ends normally having made only the guild
resolution (and, in the second case, the store read): `New` is not called,
the store is unchanged, no reply is sent, and the error is logged. -/
theorem learn_aborts_on_failure {σ : Type} (c : Context σ) (n : Str) (rest : List Str)
    (w : World σ)
    (hres : n ≠ "learn".toList ∧ n ≠ "unlearn".toList ∧ n ≠ "help".toList ∧ n ≠ "info".toList)
    (hfail : (∃ e, c.s.Guild w.trace c.m = .error e) ∨
      ∃ g e, c.s.Guild w.trace c.m = .ok g ∧ c.db.Get w.db g.ID n = .error e ∧
        e ≠ .ErrItemNotFound) :
    ∃ w', learnAction c (n :: rest) w = .ok w' ∧ w'.db = w.db ∧ w'.replies = w.replies ∧
      (w'.trace = w.trace ++ [.guild c.m.ChannelID] ∨
        ∃ g : Guild, w'.trace = w.trace ++ [.guild c.m.ChannelID, .dbGet g.ID n]) ∧
      (∀ i, Event.dbNew i ∉ w'.trace.drop w.trace.length) ∧
      w'.logs.length = w.logs.length + 1 := by
  have hres' : isReserved n = false := isReserved_false n hres
  rcases hfail with ⟨e, hg⟩ | ⟨g, e, hg, hget, hne⟩
  · have hrun : learnAction c (n :: rest) w = .ok ((w.emit (.guild c.m.ChannelID)).log
        ⟨.error, commandFields "learn".toList, "Get guild: %v".toList, .err e⟩) := by
      simp only [learnAction, index, List.getElem?_cons_zero, hres', Bool.false_eq_true,
        if_false, Guild_fst, hg, Guild_snd]
    refine ⟨_, hrun, by simp, by simp [replies_emit, Event.reply?], Or.inl (by simp),
      by simp, by simp [World.log]⟩
  · cases e with
    | ErrItemNotFound => exact absurd rfl hne
    | other t =>
      have hrun : learnAction c (n :: rest) w =
          .ok (((w.emit (.guild c.m.ChannelID)).emit (.dbGet g.ID n)).log
            ⟨.error, commandFields "learn".toList, "Get item: %v".toList,
              .err (.other t)⟩) := by
        simp only [learnAction, index, List.getElem?_cons_zero, hres', Bool.false_eq_true,
          if_false, Guild_fst, hg, DatabaseGet_fst, Guild_snd, emit_db, hget, DatabaseGet_snd]
      refine ⟨_, hrun, by simp, by simp [replies_emit, Event.reply?], Or.inr ⟨g, by simp⟩,
        by simp, by simp [World.log]⟩

/-- Witness for C15: `learn greet hi` with an unreachable gateway, and with a
store whose reads fail. -/
theorem learn_aborts_on_failure_witness :
    (∃ w', learnAction (testBot.NewContext (userMessage "!learn greet hi") offlineSession)
          ("greet".toList :: ["hi".toList]) (freshWorld [greetHi]) = .ok w' ∧
      w'.db = (freshWorld [greetHi]).db ∧ w'.replies = (freshWorld [greetHi]).replies ∧
      (w'.trace = (freshWorld [greetHi]).trace ++ [.guild
          (testBot.NewContext (userMessage "!learn greet hi") offlineSession).m.ChannelID] ∨
        ∃ g : Guild, w'.trace = (freshWorld [greetHi]).trace ++ [.guild
          (testBot.NewContext (userMessage "!learn greet hi") offlineSession).m.ChannelID,
          .dbGet g.ID "greet".toList]) ∧
      (∀ i, Event.dbNew i ∉ w'.trace.drop (freshWorld [greetHi]).trace.length) ∧
      w'.logs.length = (freshWorld [greetHi]).logs.length + 1) ∧
    ((learnAction (brokenBot.NewContext (userMessage "!learn greet hi") testSession)
        ["greet".toList, "hi".toList] (freshWorld [])).toOption.map
        fun w => (w.db, w.trace, w.logs.map fun l => l.arg)) =
      some ([], [.guild "c1".toList, .dbGet "G1".toList "greet".toList],
        [.err (.other "connection refused".toList)]) :=
  ⟨learn_aborts_on_failure (testBot.NewContext (userMessage "!learn greet hi") offlineSession)
      "greet".toList ["hi".toList] (freshWorld [greetHi]) (by decide) (Or.inl ⟨_, rfl⟩),
    by decide⟩

/-! ## C16: the ephemeral learned command -/

/-- C16: for every stored item `i`, context, world and argument list, running
the ephemeral command `dbCommand i` ends normally, makes exactly one call, the
send of `i.Response` as it is stored, and leaves the store as it was; the
result is the same for every other argument list.  The log gets a line only
when that send fails. -/
theorem learned_command_sends_response {σ : Type} (i : Item) (c : Context σ)
    (args : List Str) (w : World σ) :
    ∃ w', (dbCommand i).Run c args w = .ok w' ∧ w'.db = w.db ∧
      w'.trace = w.trace ++ [.send c.m.ChannelID i.Response] ∧
      w'.replies = w.replies ++ [i.Response] ∧
      (c.s.ChannelMessageSend w.trace c.m.ChannelID i.Response = none → w'.logs = w.logs) ∧
      ∀ args2, (dbCommand i).Run c args2 w = (dbCommand i).Run c args w := by
  obtain ⟨w', hw', hdb, htr⟩ := dbCommand_run i c args w
  refine ⟨w', hw', hdb, htr, ?_, ?_, fun _ => rfl⟩
  · rw [replies_of_trace w w' _ htr]
    simp [Event.reply?]
  · intro hsend
    simp only [defaultCommand.Run, dbCommand, NewCommand, Send_fst, hsend, Send_snd,
      Except.ok.injEq] at hw'
    rw [← hw']
    rfl

/-! ## C17: the help command of the package commands/help -/

theorem help_loop_eq (cmds : List bf.Command) (acc : List MessageEmbedField) :
    help.loop cmds acc = acc ++ (cmds.filter fun com => !com.Disabled).map help.field := by
  induction cmds generalizing acc with
  | nil => simp [help.loop]
  | cons com rest ih =>
    cases hd : com.Disabled
    · simp [help.loop, hd, ih]
    · simp [help.loop, hd, ih]

/-- C17, as stated, fails when a command is disabled: of the three commands
help, secret (disabled), help the embed lists two, so it has one field less
than there are commands. -/
theorem help_skips_disabled_commands :
    help.testContext.Commands.length = 3 ∧
      (help.Action help.testContext { sent := [], logged := [] }).sent =
        [{ Title := "Commands".toList
           Fields := [⟨"help - help".toList, "Lists all commands".toList, true⟩,
             ⟨"help - help".toList, "Lists all commands".toList, true⟩] }] := by
  decide

/-- C17 (amended): the help action lists the commands that are not disabled.
For every list `ctx.Bot.Commands` it hands exactly one embed to `SendEmbed`,
with title `Commands` and exactly one field per command of the list that is
not disabled, in list order, with name `<trigger> - <name>`, value the
command's use text and Inline true; the number of fields is the number of
commands that are not disabled, and equals the number of commands when none
is disabled. -/
theorem help_lists_enabled_commands (ctx : bf.Context) (w : bf.World) :
    (help.Action ctx w).sent = w.sent ++
        [{ Title := "Commands".toList
           Fields := (ctx.Commands.filter fun com => !com.Disabled).map fun com =>
             { Name := com.Trigger ++ " - ".toList ++ com.Name, Value := com.Use,
               Inline := true } }] ∧
      (help.loop ctx.Commands []).length = ctx.Commands.countP (fun com => !com.Disabled) ∧
      ((∀ com ∈ ctx.Commands, com.Disabled = false) →
        help.loop ctx.Commands [] = ctx.Commands.map help.field ∧
          (help.loop ctx.Commands []).length = ctx.Commands.length) := by
  have hloop := help_loop_eq ctx.Commands []
  simp only [List.nil_append] at hloop
  refine ⟨?_, ?_, ?_⟩
  · simp only [help.Action, hloop]
    split <;> rfl
  · rw [hloop, List.length_map, List.countP_eq_length_filter]
  · intro hall
    have hfilter : (ctx.Commands.filter fun com => !com.Disabled) = ctx.Commands := by
      rw [List.filter_eq_self]
      intro com hcom
      simp [hall com hcom]
    rw [hloop, hfilter]
    exact ⟨rfl, List.length_map _ _⟩

/-! ## C18: the response is stored as it was typed -/

/-- C18: joining the single-space split of a text with single spaces gives
the text back, so for every prefix, every name `n` without a space and every
text `t`, dispatching prefix+`learn `+n+` `+t on the success path (learn
registered, `n` outside the switch, guild resolved to `g`, key not found,
`New` succeeds) calls `New` once, with the item whose response is `t`
character for character, and the store that results is the one `New` makes
for that item. -/
theorem learn_stores_text_verbatim {σ : Type} (b : bot σ) (s : Session) (m : MessageCreate)
    (w : World σ) (n t : Str) (g : Guild) (learn : Command σ)
    (hauthor : m.AuthorID ≠ s.UserID)
    (hn : ' ' ∉ n)
    (hres : n ≠ "learn".toList ∧ n ≠ "unlearn".toList ∧ n ≠ "help".toList ∧ n ≠ "info".toList)
    (hlearn : b.commands.find? (fun c => c.Name = "learn".toList) = some learn)
    (hact : learn.a = learnAction)
    (hguild : s.Guild (w.trace ++ [.command "learn".toList]) m = .ok g)
    (hnone : b.db.Get w.db g.ID n = .error .ErrItemNotFound)
    (hnew : (b.db.New w.db ⟨n, t, g.ID⟩).1 = none)
    (hc : m.Content = b.Prefix ++ ("learn".toList ++ " ".toList ++ n ++ " ".toList ++ t)) :
    Join (Split t ' ') " ".toList = t ∧
    ∃ w1, b.commandHandler s m w = .ok w1 ∧
      w1.db = (b.db.New w.db ⟨n, t, g.ID⟩).2 ∧
      w1.trace = w.trace ++ [.command "learn".toList, .guild m.ChannelID, .dbGet g.ID n,
        .dbNew ⟨n, t, g.ID⟩,
        .send m.ChannelID ("Learned ".toList ++ n ++ " successfully".toList)] := by
  have hjoin : Join (Split t ' ') " ".toList = t := Join_Split t ' '
  refine ⟨hjoin, ?_⟩
  have hrun := commandHandler_static b s m w _ "learn".toList (n :: Split t ' ') learn
    hauthor hc (tokens_learn "learn".toList n t (by decide) hn) hlearn
  obtain ⟨w1, hw1, hdb1, htr1⟩ := learnAction_stores (b.NewContext m s) n (Split t ' ')
    (w.emit (.command "learn".toList)) g (isReserved_false n hres) hguild hnone
    (by rw [hjoin]; exact hnew)
  rw [hjoin] at hdb1 htr1
  refine ⟨w1, ?_, hdb1, ?_⟩
  · rw [hrun, defaultCommand.Run, hact]; exact hw1
  · rw [htr1]; simp

/-- Witness for C18: `!learn greet   two  spaces ` stores the response
`  two  spaces ` with its leading, doubled and trailing spaces. -/
theorem learn_stores_text_verbatim_witness :
    (Join (Split "  two  spaces ".toList ' ') " ".toList = "  two  spaces ".toList ∧
      ∃ w1, testBot.commandHandler testSession (userMessage "!learn greet   two  spaces ")
            (freshWorld []) = .ok w1 ∧
        w1.db = (testBot.db.New (freshWorld []).db
          ⟨"greet".toList, "  two  spaces ".toList, (Guild.mk "G1".toList).ID⟩).2 ∧
        w1.trace = (freshWorld ([] : List Item)).trace ++
          [.command "learn".toList, .guild (userMessage "!learn greet   two  spaces ").ChannelID,
            .dbGet (Guild.mk "G1".toList).ID "greet".toList,
            .dbNew ⟨"greet".toList, "  two  spaces ".toList, (Guild.mk "G1".toList).ID⟩,
            .send (userMessage "!learn greet   two  spaces ").ChannelID
              ("Learned ".toList ++ "greet".toList ++ " successfully".toList)]) ∧
    ((testBot.dispatchAll testSession
        [userMessage "!learn greet   two  spaces ", userMessage "!greet"]
        (freshWorld [])).toOption.map fun w => w.replies) =
      some ["Learned greet successfully".toList, "  two  spaces ".toList] :=
  ⟨learn_stores_text_verbatim testBot testSession (userMessage "!learn greet   two  spaces ")
      (freshWorld []) "greet".toList "  two  spaces ".toList ⟨"G1".toList⟩
      (NewCommand "learn".toList "Teach a message-response command to the bot".toList
        learnAction)
      (by decide) (by decide) (by decide) (by rfl) rfl rfl rfl rfl (by decide),
    by decide⟩

/-! ## C19: the token list is never empty -/

/-- A command the resolver returns is the ephemeral command of a stored item. -/
theorem bot_dbCommand_ok {σ : Type} (b : bot σ) (s : Session) (m : MessageCreate) (msg : Str)
    (w : World σ) (c : Command σ) (h : (b.dbCommand s m msg w).1 = .ok c) :
    ∃ i, c = dbCommand i := by
  simp only [bot.dbCommand] at h
  split at h
  · simp at h
  · split at h
    · simp at h
    · simp at h
    · simp only [Except.ok.injEq] at h; exact ⟨_, h.symm⟩

/-- C19: for every prefix, registry, store, world and message of another
author whose text is the prefix followed by `rest`, the token list
`Split rest ' '` is a first token `name` and a list `args`; the handler's
`msg[0]` yields `name` and its `msg[1:]` yields `args`, and the handler does
exactly this: it asks the registry for `name` and runs the answer on `args`,
or on a miss asks the resolver for `name` and either runs the learned command
on `args` or ends with one log line.  So the handler faults only when the
registered command for `name`, run on `args`, faults, and it ends normally
whenever that action does or the registry misses.  For a text that is exactly
the prefix, `name` is the empty string and `args` is empty. -/
theorem tokens_never_empty {σ : Type} (b : bot σ) (s : Session) (m : MessageCreate)
    (w : World σ) (rest : Str)
    (hauthor : m.AuthorID ≠ s.UserID) (hcontent : m.Content = b.Prefix ++ rest) :
    ∃ name args,
      Split rest ' ' = name :: args ∧
      index (Split rest ' ') 0 = .ok name ∧
      sliceFrom (Split rest ' ') 1 = .ok args ∧
      b.commandHandler s m w =
        (match (b.Command name w).1 with
          | .ok c => c.Run (b.NewContext m s) args (w.emit (.command name))
          | .error _ =>
            match (b.dbCommand s m name (w.emit (.command name))).1 with
            | .error .ErrItemNotFound =>
              .ok ((b.dbCommand s m name (w.emit (.command name))).2.log
                ⟨.debug, handlerFields, "Command not found: %s".toList, .str name⟩)
            | .error err =>
              .ok ((b.dbCommand s m name (w.emit (.command name))).2.log
                ⟨.error, handlerFields, "Get command: %v".toList, .err err⟩)
            | .ok c =>
              c.Run (b.NewContext m s) args
                (b.dbCommand s m name (w.emit (.command name))).2) ∧
      (∀ p, b.commandHandler s m w = .error p →
        ∃ c, (b.Command name w).1 = .ok c ∧
          c.Run (b.NewContext m s) args (w.emit (.command name)) = .error p) ∧
      ((∀ c, (b.Command name w).1 = .ok c →
          ∃ v, c.Run (b.NewContext m s) args (w.emit (.command name)) = .ok v) →
        ∃ w', b.commandHandler s m w = .ok w') ∧
      (rest = [] → name = [] ∧ args = []) := by
  have htok := tokens_cons rest
  have hrun := commandHandler_tokens b s m w rest _ _ hauthor hcontent htok
  -- a registry miss never ends in a fault
  have hmiss : ∀ e, (b.Command (rest.takeWhile fun c => c ≠ ' ') w).1 = .error e →
      ∃ w', b.commandHandler s m w = .ok w' := by
    intro e he
    rw [hrun, he]
    simp only
    cases hr : (b.dbCommand s m (rest.takeWhile fun c => c ≠ ' ')
        (w.emit (.command (rest.takeWhile fun c => c ≠ ' ')))).1 with
    | error e2 => cases e2 <;> exact ⟨_, rfl⟩
    | ok c =>
      obtain ⟨i, rfl⟩ := bot_dbCommand_ok b s m _ _ c hr
      obtain ⟨v, hv, _, _⟩ := dbCommand_run i (b.NewContext m s) (Split rest ' ').tail
        (b.dbCommand s m (rest.takeWhile fun c => c ≠ ' ')
          (w.emit (.command (rest.takeWhile fun c => c ≠ ' ')))).2
      exact ⟨v, hv⟩
  refine ⟨rest.takeWhile fun c => c ≠ ' ', (Split rest ' ').tail, htok, ?_, ?_, hrun, ?_, ?_, ?_⟩
  · rw [htok]; simp [index]
  · rw [htok]; simp [sliceFrom]
  · intro p hp
    cases hc : (b.Command (rest.takeWhile fun c => c ≠ ' ') w).1 with
    | ok c =>
      refine ⟨c, rfl, ?_⟩
      rw [hrun, hc] at hp
      exact hp
    | error e =>
      obtain ⟨w', hw'⟩ := hmiss e hc
      rw [hw'] at hp
      cases hp
  · intro hok
    cases hc : (b.Command (rest.takeWhile fun c => c ≠ ' ') w).1 with
    | ok c =>
      obtain ⟨v, hv⟩ := hok c hc
      exact ⟨v, by rw [hrun, hc]; exact hv⟩
    | error e => exact hmiss e hc
  · rintro rfl
    exact ⟨rfl, rfl⟩

/-- Witness for C19: the theorem at `!ping a b` and at the bare prefix `!`.
`!ping a b` has the tokens `ping`, `a`, `b`: the static `ping` is run on `a`
and `b` and answers `pong`.  `!` has the single empty token: the empty name is
looked up with no arguments, nothing is registered or stored under it and the
dispatch ends with a debug line; with an item stored under the empty name it
is answered. -/
theorem tokens_never_empty_witness :
    (∃ name args,
      Split "ping a b".toList ' ' = name :: args ∧
      index (Split "ping a b".toList ' ') 0 = .ok name ∧
      sliceFrom (Split "ping a b".toList ' ') 1 = .ok args ∧
      (∀ p, testBot.commandHandler testSession (userMessage "!ping a b") (freshWorld [])
          = .error p →
        ∃ c, (testBot.Command name (freshWorld [])).1 = .ok c ∧
          c.Run (testBot.NewContext (userMessage "!ping a b") testSession) args
            ((freshWorld []).emit (.command name)) = .error p) ∧
      ((∀ c, (testBot.Command name (freshWorld [])).1 = .ok c →
          ∃ v, c.Run (testBot.NewContext (userMessage "!ping a b") testSession) args
            ((freshWorld []).emit (.command name)) = .ok v) →
        ∃ w', testBot.commandHandler testSession (userMessage "!ping a b") (freshWorld [])
          = .ok w')) ∧
    (∃ name args,
      Split ([] : Str) ' ' = name :: args ∧
      index (Split ([] : Str) ' ') 0 = .ok name ∧
      sliceFrom (Split ([] : Str) ' ') 1 = .ok args ∧
      name = [] ∧ args = [] ∧
      ((∀ c, (testBot.Command name (freshWorld [])).1 = .ok c →
          ∃ v, c.Run (testBot.NewContext (userMessage "!") testSession) args
            ((freshWorld []).emit (.command name)) = .ok v) →
        ∃ w', testBot.commandHandler testSession (userMessage "!") (freshWorld [])
          = .ok w')) ∧
    Split "ping a b".toList ' ' = ["ping".toList, "a".toList, "b".toList] ∧
    testBot.commandHandler testSession (userMessage "!ping a b") (freshWorld []) =
      pingCommand.Run (testBot.NewContext (userMessage "!ping a b") testSession)
        ["a".toList, "b".toList] ((freshWorld []).emit (.command "ping".toList)) ∧
    ((testBot.commandHandler testSession (userMessage "!ping a b") (freshWorld [])).toOption.map
        fun w => (w.trace, w.replies)) =
      some ([.command "ping".toList, .send "c1".toList "pong".toList], ["pong".toList]) ∧
    ((testBot.commandHandler testSession (userMessage "!") (freshWorld [])).toOption.map
        fun w => (w.trace, w.logs.map fun l => (l.level, l.arg))) =
      some ([.command [], .stateChannel "c1".toList, .dbGet "G1".toList []],
        [(.debug, .str [])]) ∧
    ((testBot.commandHandler testSession (userMessage "!") (freshWorld [emptyNamed])).toOption.map
        fun w => w.replies) = some ["you called?".toList] := by
  obtain ⟨n1, a1, h1, h2, h3, _, h5, h6, _⟩ :=
    tokens_never_empty testBot testSession (userMessage "!ping a b") (freshWorld [])
      "ping a b".toList (by decide) (by decide)
  obtain ⟨n2, a2, k1, k2, k3, _, _, k6, k7⟩ :=
    tokens_never_empty testBot testSession (userMessage "!") (freshWorld []) []
      (by decide) (by decide)
  exact ⟨⟨n1, a1, h1, h2, h3, h5, h6⟩, ⟨n2, a2, k1, k2, k3, (k7 rfl).1, (k7 rfl).2, k6⟩,
    by decide, rfl, by decide, by decide, by decide⟩

end Mu2
